import Mathlib

/-!
Shallow embedding of the reverse-diet-visualiser plan-generation engine
(src/lib/calculations.ts) together with proofs of the specified properties.

Modelling conventions:
- JavaScript numbers are modelled as real numbers; Math.round is the
  half-up rounding function round, Math.ceil is Int.ceil, Math.min and
  Math.max are min and max, Math.sqrt is Real.sqrt.
- Calendar dates are modelled as integer day indices (the code parses the
  start date at UTC midnight and only ever adds whole days to it before
  formatting, so day arithmetic is exact); addDaysAndFormat becomes
  integer addition.
- The generator's mutable loop state (current date, week counter,
  cumulative weight change, current weight, previous week's calories) is
  threaded explicitly through a SimState value; each phase of the engine
  is a pure function from a state to an emitted list of week records plus
  a successor state, concatenated in the source's fixed phase order.
- The thrown exception for an unparsable start date becomes an
  Except.error result; the validation happens before any record is built,
  exactly as in the source.
-/

inductive Sex where
  | male
  | female
  deriving DecidableEq

inductive ActivityLevel where
  | sedentary
  | lightlyActive
  | moderatelyActive
  | veryActive
  | extraActive
  deriving DecidableEq

/-- Position of an activity level in the source's enum order (used to state
monotonicity of the multiplier table). -/
def activityIndex : ActivityLevel → ℕ
  | .sedentary => 0
  | .lightlyActive => 1
  | .moderatelyActive => 2
  | .veryActive => 3
  | .extraActive => 4

inductive PhaseName where
  | initialMaintenance
  | calorieDeficit
  | postDeficitMaintenance
  | reverseDiet
  | newMaintenance
  deriving DecidableEq

/-- PlanInput from src/types/index.ts; numeric fields are JS numbers,
modelled as reals.  The start date stays a string, parsed by the engine. -/
structure PlanInput where
  age : ℝ
  weightKg : ℝ
  heightCm : ℝ
  sex : Sex
  currentMaintenanceCalories : ℝ
  startDate : String
  initialActivityLevel : ActivityLevel
  deficitActivityLevel : Option ActivityLevel
  reverseActivityLevel : Option ActivityLevel
  newMaintenanceActivityLevel : Option ActivityLevel
  targetWeightLossKg : ℝ
  dailyDeficitKcal : ℝ
  targetFinalMaintenanceCalories : ℝ
  weeklyReverseIncreaseKcal : ℝ

/-- WeeklyPlan from src/types/index.ts.  Fields that the source stores via
Math.round are integers; dates are integer day indices. -/
structure WeeklyPlan where
  weekNumber : ℕ
  startDate : ℤ
  endDate : ℤ
  phaseName : PhaseName
  targetCalories : ℤ
  calorieChangeFromPreviousWeek : Option ℤ
  estimatedTdeeForPhase : ℤ
  estimatedWeeklyBalance : ℤ
  estimatedWeeklyWeightChangeKg : ℝ
  estimatedCumulativeWeightChangeKg : ℝ
  estimatedEndWeightKg : ℝ

def FullPlan := List WeeklyPlan

/-- Numeric-range constraints on PlanInput from the data model (section 3
of the spec; enforced by the API route before the engine runs). -/
def ValidInput (i : PlanInput) : Prop :=
  0 < i.age ∧ 0 < i.weightKg ∧ 0 < i.heightCm ∧
  0 < i.currentMaintenanceCalories ∧ 0 ≤ i.targetWeightLossKg ∧
  0 < i.dailyDeficitKcal ∧ 0 < i.targetFinalMaintenanceCalories ∧
  0 < i.weeklyReverseIncreaseKcal

/- Date parsing.  The source does new Date(input.startDate + "T00:00:00Z")
and rejects the input when the result is NaN; a string parses exactly when
it is a calendar-valid YYYY-MM-DD date.  The parsed date is represented by
its day index relative to 1970-01-01 (civil-from-days algorithm). -/

def isLeapYear (y : ℕ) : Bool :=
  (y % 4 == 0 && y % 100 != 0) || y % 400 == 0

def daysInMonth (y m : ℕ) : ℕ :=
  if m = 2 then (if isLeapYear y then 29 else 28)
  else if m = 4 ∨ m = 6 ∨ m = 9 ∨ m = 11 then 30
  else 31

def daysFromCivil (y m d : ℕ) : ℤ :=
  let yy : ℤ := if m ≤ 2 then (y : ℤ) - 1 else (y : ℤ)
  let era : ℤ := yy / 400
  let yoe : ℤ := yy - era * 400
  let mp : ℤ := ((m : ℤ) + 9) % 12
  let doy : ℤ := (153 * mp + 2) / 5 + (d : ℤ) - 1
  let doe : ℤ := yoe * 365 + yoe / 4 - yoe / 100 + doy
  era * 146097 + doe - 719468

def digitVal (c : Char) : ℕ := c.toNat - 48

def parseDate (s : String) : Option ℤ :=
  match s.toList with
  | [y1, y2, y3, y4, c1, m1, m2, c2, d1, d2] =>
    if y1.isDigit && y2.isDigit && y3.isDigit && y4.isDigit &&
       m1.isDigit && m2.isDigit && d1.isDigit && d2.isDigit &&
       c1 == '-' && c2 == '-' then
      let y := 1000 * digitVal y1 + 100 * digitVal y2 + 10 * digitVal y3 + digitVal y4
      let m := 10 * digitVal m1 + digitVal m2
      let d := 10 * digitVal d1 + digitVal d2
      if 1 ≤ m && m ≤ 12 && 1 ≤ d && d ≤ daysInMonth y m then
        some (daysFromCivil y m d)
      else none
    else none
  | _ => none

noncomputable section

/- Constants from src/lib/calculations.ts lines 4-9. -/

def KCAL_PER_KG_FAT : ℝ := 7700
def WEEKS_INITIAL_MAINTENANCE : ℕ := 1
def WEEKS_POST_DEFICIT_MAINTENANCE : ℕ := 2
def ADAPTATION_RATE : ℝ := 0.05
def MAX_ADAPTATION : ℝ := 0.15

/-- Activity level multipliers (calculations.ts lines 12-18). -/
def activityMultipliers : ActivityLevel → ℝ
  | .sedentary => 1.2
  | .lightlyActive => 1.375
  | .moderatelyActive => 1.55
  | .veryActive => 1.725
  | .extraActive => 1.9

/-- Mifflin-St Jeor BMR (calculations.ts lines 21-32). -/
def calculateBMR (weightKg heightCm age : ℝ) (sex : Sex) : ℝ :=
  match sex with
  | .male => 10 * weightKg + 6.25 * heightCm - 5 * age + 5
  | .female => 10 * weightKg + 6.25 * heightCm - 5 * age - 161

/-- TDEE from BMR and activity level (calculations.ts lines 35-37). -/
def calculateTDEE (bmr : ℝ) (activityLevel : ActivityLevel) : ℝ :=
  bmr * activityMultipliers activityLevel

/-- Metabolic adaptation factor (calculations.ts lines 40-50). -/
def calculateAdaptationFactor (weeksInDeficit : ℝ) : ℝ :=
  let monthsInDeficit := weeksInDeficit / 4.33
  let adaptationPercentage :=
    min (ADAPTATION_RATE * Real.sqrt monthsInDeficit) MAX_ADAPTATION
  1 - adaptationPercentage

/-- Deficit-phase fat-loss efficiency factor for 0-based deficit week k
(calculations.ts line 145). -/
def efficiencyFactor (k : ℕ) : ℝ := max 0.9 (1 - (k : ℝ) * 0.003)

/-- Post-deficit partial-recovery multiplier for 0-based week k, given the
adaptation factor f inherited from the end of the deficit
(calculations.ts lines 188-189). -/
def postRecoveryFactor (f : ℝ) (k : ℕ) : ℝ :=
  1 - (1 - f * 0.67 ^ k) / 2

/-- Reverse-phase recovery multiplier for 0-based reverse week k
(calculations.ts lines 248-250; weeksAfterDeficit = 2 + k). -/
def reverseRecoveryFactor (k : ℕ) : ℝ :=
  min 1.0 (0.95 + ((WEEKS_POST_DEFICIT_MAINTENANCE : ℝ) + (k : ℝ)) * 0.015)

/-- Mutable loop state of generatePlan (calculations.ts lines 74-79),
threaded explicitly. -/
structure SimState where
  currentDate : ℤ
  currentWeekNumber : ℕ
  cumulativeWeightChangeKg : ℝ
  currentWeightKg : ℝ
  lastWeekCalories : Option ℝ

/-- Record pushed onto the plan for one simulated week, given the raw
(unrounded) target calories, the week's TDEE and the already-computed
weekly weight change (the plan.push blocks of calculations.ts). -/
def mkWeek (st : SimState) (phase : PhaseName)
    (targetCalories tdee weeklyWeightChange : ℝ) : WeeklyPlan :=
  { weekNumber := st.currentWeekNumber
    startDate := st.currentDate
    endDate := st.currentDate + 6
    phaseName := phase
    targetCalories := round targetCalories
    calorieChangeFromPreviousWeek :=
      st.lastWeekCalories.map fun l => round (targetCalories - l)
    estimatedTdeeForPhase := round tdee
    estimatedWeeklyBalance := round (targetCalories * 7 - tdee * 7)
    estimatedWeeklyWeightChangeKg := weeklyWeightChange
    estimatedCumulativeWeightChangeKg :=
      st.cumulativeWeightChangeKg + weeklyWeightChange
    estimatedEndWeightKg := st.currentWeightKg + weeklyWeightChange }

/-- End-of-iteration state update common to every phase loop
(lastWeekCalories := raw target; date += 7; week += 1; accumulators). -/
def stepState (st : SimState) (targetCalories weeklyWeightChange : ℝ) : SimState :=
  { currentDate := st.currentDate + 7
    currentWeekNumber := st.currentWeekNumber + 1
    cumulativeWeightChangeKg := st.cumulativeWeightChangeKg + weeklyWeightChange
    currentWeightKg := st.currentWeightKg + weeklyWeightChange
    lastWeekCalories := some targetCalories }

/-- Generic for-loop shared by the four fixed-length phases: n remaining
iterations, current 0-based phase index i; target, tdee give the week's raw
calories and expenditure, wchange turns the weekly balance into a weight
delta (each phase instantiates these with the source's formulas). -/
def runWeeks (ph : PhaseName) (target tdee : ℕ → ℝ) (wchange : ℕ → ℝ → ℝ) :
    ℕ → ℕ → SimState → List WeeklyPlan × SimState
  | 0, _, st => ([], st)
  | n + 1, i, st =>
    let t := target i
    let e := tdee i
    let balance := t * 7 - e * 7
    let wc := wchange i balance
    let rest := runWeeks ph target tdee wchange n (i + 1) (stepState st t wc)
    (mkWeek st ph t e wc :: rest.1, rest.2)

/-- Reverse-diet loop (calculations.ts lines 239-286): raises the running
target by incr, capped at the final target T, emits the week, and breaks as
soon as the cap is reached; fuel is the computed reverse duration. -/
def reverseLoop (incr T : ℝ) (tdee : ℕ → ℝ) :
    ℕ → ℕ → ℝ → SimState → List WeeklyPlan × SimState
  | 0, _, _, st => ([], st)
  | fuel + 1, i, cur, st =>
    let cur' := min (cur + incr) T
    let e := tdee i
    let balance := cur' * 7 - e * 7
    let eff : ℝ := if 0 < balance then 0.9 else 1.0
    let wc := balance / (KCAL_PER_KG_FAT * eff)
    let rec0 := mkWeek st .reverseDiet cur' e wc
    let st' := stepState st cur' wc
    if T ≤ cur' then ([rec0], st')
    else
      let rest := reverseLoop incr T tdee fuel (i + 1) cur' st'
      (rec0 :: rest.1, rest.2)

/-- Raw (unrounded) target calories of the 0-based k-th emitted reverse
week when the loop enters with running calories cur. -/
def revTarget (incr T : ℝ) : ℝ → ℕ → ℝ
  | cur, 0 => min (cur + incr) T
  | cur, k + 1 => revTarget incr T (min (cur + incr) T) k

/-- Weekly weight change of a reverse week entered with running calories
cur (balance-dependent surplus efficiency, calculations.ts lines 255-260),
spelled out for use in the unfolding lemma of reverseLoop. -/
def revWc (incr T ei cur : ℝ) : ℝ :=
  (min (cur + incr) T * 7 - ei * 7) /
    (KCAL_PER_KG_FAT *
      (if 0 < min (cur + incr) T * 7 - ei * 7 then (0.9 : ℝ) else 1.0))

/- Named pieces of generatePlan (calculations.ts lines 60-327). -/

def inputBmr (i : PlanInput) : ℝ :=
  calculateBMR i.weightKg i.heightCm i.age i.sex

def initialTdee (i : PlanInput) : ℝ :=
  calculateTDEE (inputBmr i) i.initialActivityLevel

def deficitActivity (i : PlanInput) : ActivityLevel :=
  i.deficitActivityLevel.getD i.initialActivityLevel

def baseTdee (i : PlanInput) : ℝ :=
  calculateTDEE (inputBmr i) (deficitActivity i)

def deficitCalories (i : PlanInput) : ℝ :=
  i.currentMaintenanceCalories - i.dailyDeficitKcal

/-- Deficit duration (calculations.ts lines 125-130): ceiling of the
energy-based week count times 1.1, then clamped into the interval 4..52. -/
def deficitDurationWeeks (i : PlanInput) : ℤ :=
  max 4 (min ⌈i.targetWeightLossKg * KCAL_PER_KG_FAT / (i.dailyDeficitKcal * 7) * 1.1⌉ 52)

def reverseActivity (i : PlanInput) : ActivityLevel :=
  i.reverseActivityLevel.getD i.initialActivityLevel

def newMaintenanceActivity (i : PlanInput) : ActivityLevel :=
  i.newMaintenanceActivityLevel.getD i.initialActivityLevel

/-- Reverse duration (calculations.ts lines 235-237). -/
def reverseDurationWeeks (i : PlanInput) : ℤ :=
  ⌈(i.targetFinalMaintenanceCalories - deficitCalories i) / i.weeklyReverseIncreaseKcal⌉

/-- Base post-deficit TDEE, recomputed from the weight w at the start of
the post-deficit phase (calculations.ts lines 171-182). -/
def basePostDeficitTdee (i : PlanInput) (w : ℝ) : ℝ :=
  calculateTDEE (calculateBMR w i.heightCm i.age i.sex) (deficitActivity i)

/-- Base reverse TDEE, recomputed from the weight w at the start of the
reverse phase (calculations.ts lines 222-233). -/
def baseReverseTdee (i : PlanInput) (w : ℝ) : ℝ :=
  calculateTDEE (calculateBMR w i.heightCm i.age i.sex) (reverseActivity i)

/-- Phase 1: initial maintenance, one week (calculations.ts lines 88-115). -/
def phase1 (i : PlanInput) (st : SimState) : List WeeklyPlan × SimState :=
  runWeeks .initialMaintenance (fun _ => i.currentMaintenanceCalories)
    (fun _ => initialTdee i) (fun _ b => b / KCAL_PER_KG_FAT)
    WEEKS_INITIAL_MAINTENANCE 0 st

/-- Phase 2: calorie deficit (calculations.ts lines 117-168). -/
def phase2 (i : PlanInput) (st : SimState) : List WeeklyPlan × SimState :=
  runWeeks .calorieDeficit (fun _ => deficitCalories i)
    (fun k => baseTdee i * calculateAdaptationFactor (k : ℝ))
    (fun k b => b / (KCAL_PER_KG_FAT * efficiencyFactor k))
    (deficitDurationWeeks i).toNat 0 st

/-- Phase 3: post-deficit maintenance, two weeks (calculations.ts
lines 170-219). -/
def phase3 (i : PlanInput) (st : SimState) : List WeeklyPlan × SimState :=
  runWeeks .postDeficitMaintenance (fun _ => deficitCalories i)
    (fun k => basePostDeficitTdee i st.currentWeightKg *
      postRecoveryFactor (calculateAdaptationFactor ((deficitDurationWeeks i : ℤ) : ℝ)) k)
    (fun _ b => b / (KCAL_PER_KG_FAT * 0.9))
    WEEKS_POST_DEFICIT_MAINTENANCE 0 st

/-- Phase 4: reverse diet (calculations.ts lines 221-286). -/
def phase4 (i : PlanInput) (st : SimState) : List WeeklyPlan × SimState :=
  reverseLoop i.weeklyReverseIncreaseKcal i.targetFinalMaintenanceCalories
    (fun k => baseReverseTdee i st.currentWeightKg * reverseRecoveryFactor k)
    (reverseDurationWeeks i).toNat 0 (deficitCalories i) st

/-- Phase 5: new maintenance, one terminal week (calculations.ts
lines 288-323). -/
def phase5 (i : PlanInput) (st : SimState) : List WeeklyPlan × SimState :=
  runWeeks .newMaintenance (fun _ => i.targetFinalMaintenanceCalories)
    (fun _ => calculateTDEE (calculateBMR st.currentWeightKg i.heightCm i.age i.sex)
      (newMaintenanceActivity i))
    (fun _ b => b / KCAL_PER_KG_FAT) 1 0 st

/-- Initial loop state (calculations.ts lines 74-79). -/
def state0 (i : PlanInput) (d : ℤ) : SimState :=
  { currentDate := d
    currentWeekNumber := 1
    cumulativeWeightChangeKg := 0
    currentWeightKg := i.weightKg
    lastWeekCalories := none }

def run1 (i : PlanInput) (d : ℤ) : List WeeklyPlan × SimState := phase1 i (state0 i d)
def run2 (i : PlanInput) (d : ℤ) : List WeeklyPlan × SimState := phase2 i (run1 i d).2
def run3 (i : PlanInput) (d : ℤ) : List WeeklyPlan × SimState := phase3 i (run2 i d).2
def run4 (i : PlanInput) (d : ℤ) : List WeeklyPlan × SimState := phase4 i (run3 i d).2
def run5 (i : PlanInput) (d : ℤ) : List WeeklyPlan × SimState := phase5 i (run4 i d).2

/-- The full plan produced once the start date parsed to day index d. -/
def generatePlanCore (i : PlanInput) (d : ℤ) : List WeeklyPlan :=
  (run1 i d).1 ++ (run2 i d).1 ++ (run3 i d).1 ++ (run4 i d).1 ++ (run5 i d).1

/-- generatePlan (calculations.ts lines 60-327): validates the start date
before any week is emitted, then runs the five phases in order.  The
source's thrown Error is modelled as an Except.error carrying the thrown
message; on the error path no record has been produced. -/
def generatePlan (i : PlanInput) : Except String (List WeeklyPlan) :=
  match parseDate i.startDate with
  | none => .error "Invalid start date format. Please use YYYY-MM-DD."
  | some d => .ok (generatePlanCore i d)

/-- A list of week records whose week numbers count up from w and whose
start dates advance by 7 days from d, each week spanning 7 inclusive days. -/
def ShapeFrom (l : List WeeklyPlan) (w : ℕ) (d : ℤ) : Prop :=
  ∀ k, k < l.length → ∃ r : WeeklyPlan, l[k]? = some r ∧
    r.weekNumber = w + k ∧ r.startDate = d + 7 * k ∧ r.endDate = d + 7 * k + 6

/-- A list of week records whose cumulative weight change continues the
running sum from c0 and whose end weight is the fixed base weight W plus
the record's own cumulative change. -/
def CumFrom (l : List WeeklyPlan) (c0 W : ℝ) : Prop :=
  ∀ k, k < l.length → ∃ r : WeeklyPlan, l[k]? = some r ∧
    r.estimatedCumulativeWeightChangeKg =
      c0 + ((l.take (k + 1)).map (fun s => s.estimatedWeeklyWeightChangeKg)).sum ∧
    r.estimatedEndWeightKg = W + r.estimatedCumulativeWeightChangeKg

/-- A list of week records whose stored targets are the rounds of the raw
target sequence raw and whose calorie changes chain the raw targets, the
first against the raw calories last0 inherited from before the list. -/
def LinkedFrom (l : List WeeklyPlan) (last0 : Option ℝ) (raw : ℕ → ℝ) : Prop :=
  ∀ k, k < l.length → ∃ r : WeeklyPlan, l[k]? = some r ∧
    r.targetCalories = round (raw k) ∧
    r.calorieChangeFromPreviousWeek =
      ((if k = 0 then last0 else some (raw (k - 1))).map
        (fun v => round (raw k - v)))

/-- One phase segment: its records' week numbers and dates continue the
entry state st, and the exit state st' has advanced by the emitted length. -/
def ShapeSeg (l : List WeeklyPlan) (st st' : SimState) : Prop :=
  ShapeFrom l st.currentWeekNumber st.currentDate ∧
  st'.currentWeekNumber = st.currentWeekNumber + l.length ∧
  st'.currentDate = st.currentDate + 7 * l.length

/-- One phase segment for the accumulators: records continue the entry
state's cumulative change and weight, and the exit state absorbs the sum
of the emitted weekly changes. -/
def CumSeg (l : List WeeklyPlan) (st st' : SimState) : Prop :=
  CumFrom l st.cumulativeWeightChangeKg
    (st.currentWeightKg - st.cumulativeWeightChangeKg) ∧
  st'.cumulativeWeightChangeKg = st.cumulativeWeightChangeKg +
    (l.map (fun s => s.estimatedWeeklyWeightChangeKg)).sum ∧
  st'.currentWeightKg = st.currentWeightKg +
    (l.map (fun s => s.estimatedWeeklyWeightChangeKg)).sum

/-- One phase segment for the calorie chain: records chain their raw
targets from the entry state's last-week calories, and the exit state
remembers the last raw target (or keeps the entry value when the segment
is empty). -/
def LinkedSeg (l : List WeeklyPlan) (raw : ℕ → ℝ) (st st' : SimState) : Prop :=
  LinkedFrom l st.lastWeekCalories raw ∧
  st'.lastWeekCalories =
    (if l.length = 0 then st.lastWeekCalories else some (raw (l.length - 1)))

/-- Example input from section 8 of the spec, used to witness the plan
theorems at a concrete valid input. -/
def exampleInput : PlanInput :=
  { age := 30, weightKg := 70, heightCm := 170, sex := Sex.female,
    currentMaintenanceCalories := 2000, startDate := "2024-01-01",
    initialActivityLevel := ActivityLevel.lightlyActive,
    deficitActivityLevel := none, reverseActivityLevel := none,
    newMaintenanceActivityLevel := none, targetWeightLossKg := 5,
    dailyDeficitKcal := 500, targetFinalMaintenanceCalories := 2200,
    weeklyReverseIncreaseKcal := 100 }

/-- Valid input whose final maintenance target is fractional (2200.6 kcal);
the reverse phase caps its raw running target at 2200.6, which rounds to
the stored target 2201. -/
def fractionalCapInput : PlanInput :=
  { age := 30, weightKg := 70, heightCm := 170, sex := Sex.female,
    currentMaintenanceCalories := 2000, startDate := "2024-01-01",
    initialActivityLevel := ActivityLevel.lightlyActive,
    deficitActivityLevel := none, reverseActivityLevel := none,
    newMaintenanceActivityLevel := none, targetWeightLossKg := 0,
    dailyDeficitKcal := 500, targetFinalMaintenanceCalories := 2200.6,
    weeklyReverseIncreaseKcal := 100 }

/-- Valid input with fractional calorie inputs (maintenance 2000.4 kcal,
daily deficit 499.8 kcal): the deficit target 1500.6 rounds to 1501 while
the stored change round(1500.6 - 2000.4) = -500 differs from
1501 - 2000 = -499. -/
def fractionalCaloriesInput : PlanInput :=
  { age := 30, weightKg := 70, heightCm := 170, sex := Sex.female,
    currentMaintenanceCalories := 2000.4, startDate := "2024-01-01",
    initialActivityLevel := ActivityLevel.lightlyActive,
    deficitActivityLevel := none, reverseActivityLevel := none,
    newMaintenanceActivityLevel := none, targetWeightLossKg := 0,
    dailyDeficitKcal := 499.8, targetFinalMaintenanceCalories := 2200,
    weeklyReverseIncreaseKcal := 100 }

end


/-! ### Structural lemmas about the generic phase loop -/

theorem runWeeks_zero (ph : PhaseName) (t e : ℕ → ℝ) (w : ℕ → ℝ → ℝ)
    (i : ℕ) (st : SimState) : runWeeks ph t e w 0 i st = ([], st) := rfl

theorem runWeeks_succ (ph : PhaseName) (t e : ℕ → ℝ) (w : ℕ → ℝ → ℝ)
    (n i : ℕ) (st : SimState) :
    runWeeks ph t e w (n + 1) i st =
      (mkWeek st ph (t i) (e i) (w i (t i * 7 - e i * 7)) ::
         (runWeeks ph t e w n (i + 1)
           (stepState st (t i) (w i (t i * 7 - e i * 7)))).1,
       (runWeeks ph t e w n (i + 1)
         (stepState st (t i) (w i (t i * 7 - e i * 7)))).2) := rfl

theorem runWeeks_length (ph : PhaseName) (t e : ℕ → ℝ) (w : ℕ → ℝ → ℝ) :
    ∀ (n i : ℕ) (st : SimState), ((runWeeks ph t e w n i st).1).length = n := by
  intro n
  induction n with
  | zero => intro i st; rfl
  | succ n ih =>
    intro i st
    rw [runWeeks_succ]
    simp only [List.length_cons, ih]

theorem runWeeks_snd (ph : PhaseName) (t e : ℕ → ℝ) (w : ℕ → ℝ → ℝ) :
    ∀ (n i : ℕ) (st : SimState),
      (runWeeks ph t e w n i st).2.currentWeekNumber = st.currentWeekNumber + n ∧
      (runWeeks ph t e w n i st).2.currentDate = st.currentDate + 7 * n ∧
      (runWeeks ph t e w n i st).2.lastWeekCalories =
        (if n = 0 then st.lastWeekCalories else some (t (i + n - 1))) ∧
      (runWeeks ph t e w n i st).2.cumulativeWeightChangeKg =
        st.cumulativeWeightChangeKg +
          (((runWeeks ph t e w n i st).1).map
            (fun r => r.estimatedWeeklyWeightChangeKg)).sum ∧
      (runWeeks ph t e w n i st).2.currentWeightKg =
        st.currentWeightKg +
          (((runWeeks ph t e w n i st).1).map
            (fun r => r.estimatedWeeklyWeightChangeKg)).sum := by
  intro n
  induction n with
  | zero => intro i st; simp [runWeeks_zero]
  | succ n ih =>
    intro i st
    obtain ⟨h1, h2, h3, h4, h5⟩ := ih (i + 1)
      (stepState st (t i) (w i (t i * 7 - e i * 7)))
    rw [runWeeks_succ]
    refine ⟨?_, ?_, ?_, ?_, ?_⟩
    · rw [h1]; simp only [stepState]; omega
    · rw [h2]; simp only [stepState]; push_cast; ring
    · rw [h3]
      rcases Nat.eq_zero_or_pos n with hn | hn
      · subst hn; simp [stepState]
      · have hne : ¬ n = 0 := by omega
        have hne2 : ¬ n + 1 = 0 := by omega
        simp only [hne, hne2, if_false, stepState]
        congr 2
        omega
    · rw [List.map_cons, List.sum_cons, h4]
      simp only [stepState, mkWeek]
      ring
    · rw [List.map_cons, List.sum_cons, h5]
      simp only [stepState, mkWeek]
      ring

theorem runWeeks_get (ph : PhaseName) (t e : ℕ → ℝ) (w : ℕ → ℝ → ℝ) :
    ∀ (n i : ℕ) (st : SimState) (k : ℕ), k < n →
      ∃ r : WeeklyPlan,
        ((runWeeks ph t e w n i st).1)[k]? = some r ∧
        r.phaseName = ph ∧
        r.weekNumber = st.currentWeekNumber + k ∧
        r.startDate = st.currentDate + 7 * k ∧
        r.endDate = st.currentDate + 7 * k + 6 ∧
        r.targetCalories = round (t (i + k)) ∧
        r.estimatedTdeeForPhase = round (e (i + k)) ∧
        r.estimatedWeeklyBalance = round (t (i + k) * 7 - e (i + k) * 7) ∧
        r.estimatedWeeklyWeightChangeKg = w (i + k) (t (i + k) * 7 - e (i + k) * 7) ∧
        r.calorieChangeFromPreviousWeek =
          ((if k = 0 then st.lastWeekCalories else some (t (i + k - 1))).map
            (fun v => round (t (i + k) - v))) ∧
        r.estimatedCumulativeWeightChangeKg =
          st.cumulativeWeightChangeKg +
            ((((runWeeks ph t e w n i st).1).take (k + 1)).map
              (fun s => s.estimatedWeeklyWeightChangeKg)).sum ∧
        r.estimatedEndWeightKg =
          st.currentWeightKg +
            ((((runWeeks ph t e w n i st).1).take (k + 1)).map
              (fun s => s.estimatedWeeklyWeightChangeKg)).sum := by
  intro n
  induction n with
  | zero => intro i st k hk; omega
  | succ n ih =>
    intro i st k hk
    match k with
    | 0 =>
      refine ⟨mkWeek st ph (t i) (e i) (w i (t i * 7 - e i * 7)), ?_⟩
      rw [runWeeks_succ]
      simp [mkWeek]
    | k + 1 =>
      obtain ⟨r, hr, hps, hwk, hsd, hed, htc, htd, hbal, hwc, hch, hcum, hend⟩ :=
        ih (i + 1) (stepState st (t i) (w i (t i * 7 - e i * 7))) k (by omega)
      have hik : i + (k + 1) = i + 1 + k := by omega
      refine ⟨r, ?_, hps, ?_, ?_, ?_, ?_, ?_, ?_, ?_, ?_, ?_, ?_⟩
      · rw [runWeeks_succ]
        simpa using hr
      · rw [hwk]; simp only [stepState]; omega
      · rw [hsd]; simp only [stepState]; push_cast; ring
      · rw [hed]; simp only [stepState]; push_cast; ring
      · rw [hik, htc]
      · rw [hik, htd]
      · rw [hik, hbal]
      · rw [hik, hwc]
      · rw [hik, hch]
        rcases Nat.eq_zero_or_pos k with hk0 | hkpos
        · subst hk0; simp [stepState]
        · have h1 : ¬ k = 0 := by omega
          have h2 : ¬ k + 1 = 0 := by omega
          simp only [h1, h2, if_false, stepState]
      · rw [runWeeks_succ]
        rw [List.take_succ_cons, List.map_cons, List.sum_cons, hcum]
        simp only [stepState, mkWeek]
        ring
      · rw [runWeeks_succ]
        rw [List.take_succ_cons, List.map_cons, List.sum_cons, hend]
        simp only [stepState, mkWeek]
        ring

/-! ### Structural lemmas about the reverse-diet loop -/

theorem reverseLoop_zero (incr T : ℝ) (e : ℕ → ℝ) (i : ℕ) (cur : ℝ)
    (st : SimState) : reverseLoop incr T e 0 i cur st = ([], st) := rfl

theorem reverseLoop_succ (incr T : ℝ) (e : ℕ → ℝ) (fuel i : ℕ) (cur : ℝ)
    (st : SimState) :
    reverseLoop incr T e (fuel + 1) i cur st =
      (if T ≤ min (cur + incr) T then
        ([mkWeek st .reverseDiet (min (cur + incr) T) (e i)
            (revWc incr T (e i) cur)],
         stepState st (min (cur + incr) T) (revWc incr T (e i) cur))
      else
        (mkWeek st .reverseDiet (min (cur + incr) T) (e i)
            (revWc incr T (e i) cur) ::
          (reverseLoop incr T e fuel (i + 1) (min (cur + incr) T)
            (stepState st (min (cur + incr) T) (revWc incr T (e i) cur))).1,
         (reverseLoop incr T e fuel (i + 1) (min (cur + incr) T)
           (stepState st (min (cur + incr) T) (revWc incr T (e i) cur))).2)) := by
  by_cases hbr : T ≤ min (cur + incr) T
  · simp only [if_pos hbr]
    simp only [reverseLoop, revWc, if_pos hbr]
  · simp only [if_neg hbr]
    simp only [reverseLoop, revWc, if_neg hbr]

theorem reverseLoop_length_le (incr T : ℝ) (e : ℕ → ℝ) :
    ∀ (fuel i : ℕ) (cur : ℝ) (st : SimState),
      ((reverseLoop incr T e fuel i cur st).1).length ≤ fuel := by
  intro fuel
  induction fuel with
  | zero => intro i cur st; simp [reverseLoop_zero]
  | succ fuel ih =>
    intro i cur st
    rw [reverseLoop_succ]
    by_cases hbr : T ≤ min (cur + incr) T
    · rw [if_pos hbr]
      simp
    · rw [if_neg hbr]
      simp only [List.length_cons]
      have := ih (i + 1) (min (cur + incr) T)
        (stepState st (min (cur + incr) T) (revWc incr T (e i) cur))
      omega

theorem revTarget_le (incr T : ℝ) : ∀ (k : ℕ) (cur : ℝ),
    revTarget incr T cur k ≤ T := by
  intro k
  induction k with
  | zero => intro cur; exact min_le_right _ _
  | succ k ih => intro cur; exact ih (min (cur + incr) T)

theorem revTarget_closed (incr T : ℝ) (h : 0 ≤ incr) : ∀ (k : ℕ) (cur : ℝ),
    revTarget incr T cur k = min (cur + (k + 1 : ℕ) * incr) T := by
  intro k
  induction k with
  | zero => intro cur; simp [revTarget]
  | succ k ih =>
    intro cur
    show revTarget incr T (min (cur + incr) T) k = _
    rw [ih (min (cur + incr) T)]
    have hc : (0 : ℝ) ≤ ((k : ℝ) + 1) * incr := by positivity
    push_cast
    rcases le_total (cur + incr) T with hle | hle
    · rw [min_eq_left hle]
      congr 1
      ring
    · rw [min_eq_right hle]
      have expand : cur + ((k : ℝ) + 1 + 1) * incr =
          cur + incr + ((k : ℝ) + 1) * incr := by ring
      rw [expand]
      rw [min_eq_right (by linarith : T ≤ T + ((k : ℝ) + 1) * incr)]
      rw [min_eq_right (by linarith : T ≤ cur + incr + ((k : ℝ) + 1) * incr)]

theorem reverseLoop_get (incr T : ℝ) (e : ℕ → ℝ) :
    ∀ (fuel i : ℕ) (cur : ℝ) (st : SimState) (k : ℕ),
      k < ((reverseLoop incr T e fuel i cur st).1).length →
      ∃ r : WeeklyPlan,
        ((reverseLoop incr T e fuel i cur st).1)[k]? = some r ∧
        r.phaseName = .reverseDiet ∧
        r.weekNumber = st.currentWeekNumber + k ∧
        r.startDate = st.currentDate + 7 * k ∧
        r.endDate = st.currentDate + 7 * k + 6 ∧
        r.targetCalories = round (revTarget incr T cur k) ∧
        r.estimatedTdeeForPhase = round (e (i + k)) ∧
        r.calorieChangeFromPreviousWeek =
          ((if k = 0 then st.lastWeekCalories
            else some (revTarget incr T cur (k - 1))).map
            (fun v => round (revTarget incr T cur k - v))) ∧
        r.estimatedCumulativeWeightChangeKg =
          st.cumulativeWeightChangeKg +
            ((((reverseLoop incr T e fuel i cur st).1).take (k + 1)).map
              (fun s => s.estimatedWeeklyWeightChangeKg)).sum ∧
        r.estimatedEndWeightKg =
          st.currentWeightKg +
            ((((reverseLoop incr T e fuel i cur st).1).take (k + 1)).map
              (fun s => s.estimatedWeeklyWeightChangeKg)).sum := by
  intro fuel
  induction fuel with
  | zero => intro i cur st k hk; rw [reverseLoop_zero] at hk; simp at hk
  | succ fuel ih =>
    intro i cur st k hk
    rw [reverseLoop_succ] at hk ⊢
    by_cases hbr : T ≤ min (cur + incr) T
    · rw [if_pos hbr] at hk ⊢
      simp only [List.length_cons, List.length_nil] at hk
      have hk0 : k = 0 := by omega
      subst hk0
      refine ⟨mkWeek st .reverseDiet (min (cur + incr) T) (e i)
        (revWc incr T (e i) cur), ?_⟩
      simp [mkWeek, revTarget]
    · rw [if_neg hbr] at hk ⊢
      match k with
      | 0 =>
        refine ⟨mkWeek st .reverseDiet (min (cur + incr) T) (e i)
          (revWc incr T (e i) cur), ?_⟩
        simp [mkWeek, revTarget]
      | k + 1 =>
        simp only [List.length_cons] at hk
        obtain ⟨r, hr, hps, hwk, hsd, hed, htc, htd, hch, hcum, hend⟩ :=
          ih (i + 1) (min (cur + incr) T)
            (stepState st (min (cur + incr) T) (revWc incr T (e i) cur)) k
            (by omega)
        have hrev : ∀ j : ℕ, revTarget incr T cur (j + 1) =
            revTarget incr T (min (cur + incr) T) j := by
          intro j; rfl
        refine ⟨r, ?_, hps, ?_, ?_, ?_, ?_, ?_, ?_, ?_, ?_⟩
        · simpa using hr
        · rw [hwk]; simp only [stepState]; omega
        · rw [hsd]; simp only [stepState]; push_cast; ring
        · rw [hed]; simp only [stepState]; push_cast; ring
        · rw [hrev, htc]
        · rw [htd]; congr 2; omega
        · rw [hch, hrev]
          rcases Nat.eq_zero_or_pos k with hk0 | hkpos
          · subst hk0
            simp [stepState, revTarget]
          · have h1 : ¬ k = 0 := by omega
            have h2 : ¬ k + 1 = 0 := by omega
            simp only [h1, h2, if_false, stepState, Nat.add_sub_cancel]
            have hj : k = (k - 1) + 1 := by omega
            congr 2
            conv_rhs => rw [hj, hrev]
        · rw [List.take_succ_cons, List.map_cons, List.sum_cons, hcum]
          simp only [stepState, mkWeek]
          ring
        · rw [List.take_succ_cons, List.map_cons, List.sum_cons, hend]
          simp only [stepState, mkWeek]
          ring

theorem reverseLoop_snd (incr T : ℝ) (e : ℕ → ℝ) :
    ∀ (fuel i : ℕ) (cur : ℝ) (st : SimState),
      (reverseLoop incr T e fuel i cur st).2.currentWeekNumber =
        st.currentWeekNumber + ((reverseLoop incr T e fuel i cur st).1).length ∧
      (reverseLoop incr T e fuel i cur st).2.currentDate =
        st.currentDate + 7 * ((reverseLoop incr T e fuel i cur st).1).length ∧
      (reverseLoop incr T e fuel i cur st).2.lastWeekCalories =
        (if ((reverseLoop incr T e fuel i cur st).1).length = 0 then
          st.lastWeekCalories
         else some (revTarget incr T cur
           (((reverseLoop incr T e fuel i cur st).1).length - 1))) ∧
      (reverseLoop incr T e fuel i cur st).2.cumulativeWeightChangeKg =
        st.cumulativeWeightChangeKg +
          (((reverseLoop incr T e fuel i cur st).1).map
            (fun r => r.estimatedWeeklyWeightChangeKg)).sum ∧
      (reverseLoop incr T e fuel i cur st).2.currentWeightKg =
        st.currentWeightKg +
          (((reverseLoop incr T e fuel i cur st).1).map
            (fun r => r.estimatedWeeklyWeightChangeKg)).sum := by
  intro fuel
  induction fuel with
  | zero => intro i cur st; simp [reverseLoop_zero]
  | succ fuel ih =>
    intro i cur st
    rw [reverseLoop_succ]
    by_cases hbr : T ≤ min (cur + incr) T
    · rw [if_pos hbr]
      simp [stepState, mkWeek, revTarget]
    · rw [if_neg hbr]
      obtain ⟨h1, h2, h3, h4, h5⟩ := ih (i + 1) (min (cur + incr) T)
        (stepState st (min (cur + incr) T) (revWc incr T (e i) cur))
      have hrev : ∀ j : ℕ, revTarget incr T cur (j + 1) =
          revTarget incr T (min (cur + incr) T) j := by
        intro j; rfl
      refine ⟨?_, ?_, ?_, ?_, ?_⟩
      · rw [h1]; simp only [stepState, List.length_cons]; omega
      · rw [h2]; simp only [stepState, List.length_cons]; push_cast; ring
      · simp only [List.length_cons, if_neg (Nat.succ_ne_zero _), Nat.add_sub_cancel]
        rw [h3]
        rcases Nat.eq_zero_or_pos
          ((reverseLoop incr T e fuel (i + 1) (min (cur + incr) T)
            (stepState st (min (cur + incr) T) (revWc incr T (e i) cur))).1).length
          with hL | hL
        · rw [hL]
          simp [stepState, revTarget]
        · have hL1 : ¬ (reverseLoop incr T e fuel (i + 1) (min (cur + incr) T)
              (stepState st (min (cur + incr) T) (revWc incr T (e i) cur))).1.length = 0 := by
            omega
          rw [if_neg hL1]
          have hj : (reverseLoop incr T e fuel (i + 1) (min (cur + incr) T)
              (stepState st (min (cur + incr) T) (revWc incr T (e i) cur))).1.length =
              ((reverseLoop incr T e fuel (i + 1) (min (cur + incr) T)
                (stepState st (min (cur + incr) T) (revWc incr T (e i) cur))).1.length - 1) + 1 := by
            omega
          congr 1
          conv_rhs => rw [hj, hrev]
      · rw [List.map_cons, List.sum_cons, h4]
        simp only [stepState, mkWeek]
        ring
      · rw [List.map_cons, List.sum_cons, h5]
        simp only [stepState, mkWeek]
        ring

theorem reverseLoop_break (incr T : ℝ) (e : ℕ → ℝ) :
    ∀ (fuel i : ℕ) (cur : ℝ) (st : SimState),
      cur < T → T ≤ cur + fuel * incr →
      ((reverseLoop incr T e fuel i cur st).1) ≠ [] ∧
      revTarget incr T cur
        (((reverseLoop incr T e fuel i cur st).1).length - 1) = T ∧
      ∀ k : ℕ, k + 1 < ((reverseLoop incr T e fuel i cur st).1).length →
        revTarget incr T cur k < T := by
  intro fuel
  induction fuel with
  | zero =>
    intro i cur st h1 h2
    push_cast at h2
    simp at h2
    linarith
  | succ fuel ih =>
    intro i cur st h1 h2
    rw [reverseLoop_succ]
    by_cases hbr : T ≤ min (cur + incr) T
    · rw [if_pos hbr]
      have hT : min (cur + incr) T = T := le_antisymm (min_le_right _ _) hbr
      refine ⟨by simp, ?_, ?_⟩
      · simpa [revTarget] using hT
      · intro k hk
        simp at hk
    · rw [if_neg hbr]
      have hlt : cur + incr < T := by
        rcases le_total (cur + incr) T with hle | hle
        · rcases lt_or_eq_of_le hle with hlt | heq
          · exact hlt
          · exact absurd (by rw [min_eq_left hle]; exact le_of_eq heq.symm) hbr
        · exact absurd (by rw [min_eq_right hle]) hbr
      have hmin : min (cur + incr) T = cur + incr := min_eq_left (le_of_lt hlt)
      have hstep : T ≤ (cur + incr) + fuel * incr := by
        have hexp : cur + ((fuel : ℝ) + 1) * incr =
            (cur + incr) + (fuel : ℝ) * incr := by ring
        push_cast at h2
        linarith [h2, hexp.ge, hexp.le]
      obtain ⟨hne, hlast, hbefore⟩ := ih (i + 1) (min (cur + incr) T)
        (stepState st (min (cur + incr) T) (revWc incr T (e i) cur))
        (by rw [hmin]; exact hlt) (by rw [hmin]; exact hstep)
      have hrev : ∀ j : ℕ, revTarget incr T cur (j + 1) =
          revTarget incr T (min (cur + incr) T) j := by
        intro j; rfl
      have hLpos : 0 < ((reverseLoop incr T e fuel (i + 1) (min (cur + incr) T)
          (stepState st (min (cur + incr) T) (revWc incr T (e i) cur))).1).length := by
        cases hL : (reverseLoop incr T e fuel (i + 1) (min (cur + incr) T)
            (stepState st (min (cur + incr) T) (revWc incr T (e i) cur))).1 with
        | nil => exact absurd hL hne
        | cons a l => simp [hL]
      refine ⟨by simp, ?_, ?_⟩
      · simp only [List.length_cons, Nat.add_sub_cancel]
        have hj : ((reverseLoop incr T e fuel (i + 1) (min (cur + incr) T)
            (stepState st (min (cur + incr) T) (revWc incr T (e i) cur))).1).length =
            (((reverseLoop incr T e fuel (i + 1) (min (cur + incr) T)
              (stepState st (min (cur + incr) T) (revWc incr T (e i) cur))).1).length - 1) + 1 := by
          omega
        rw [hj, hrev]
        exact hlast
      · intro k hk
        simp only [List.length_cons] at hk
        match k with
        | 0 =>
          have : revTarget incr T cur 0 = min (cur + incr) T := rfl
          rw [this, hmin]
          exact hlt
        | k + 1 =>
          rw [hrev]
          exact hbefore k (by omega)

/-! ### Composition of the shape, accumulator and calorie-chain predicates -/

theorem shapeFrom_append {l1 l2 : List WeeklyPlan} {w : ℕ} {d : ℤ}
    (h1 : ShapeFrom l1 w d)
    (h2 : ShapeFrom l2 (w + l1.length) (d + 7 * l1.length)) :
    ShapeFrom (l1 ++ l2) w d := by
  intro k hk
  rw [List.length_append] at hk
  by_cases hlt : k < l1.length
  · obtain ⟨r, hr, h⟩ := h1 k hlt
    exact ⟨r, by rw [List.getElem?_append_left hlt]; exact hr, h⟩
  · have hge : l1.length ≤ k := by omega
    obtain ⟨r, hr, hwk, hsd, hed⟩ := h2 (k - l1.length) (by omega)
    refine ⟨r, by rw [List.getElem?_append_right hge]; exact hr, ?_, ?_, ?_⟩
    · rw [hwk]; omega
    · rw [hsd]; omega
    · rw [hed]; omega

theorem cumFrom_append {l1 l2 : List WeeklyPlan} {c0 W : ℝ}
    (h1 : CumFrom l1 c0 W)
    (h2 : CumFrom l2
      (c0 + (l1.map (fun s => s.estimatedWeeklyWeightChangeKg)).sum) W) :
    CumFrom (l1 ++ l2) c0 W := by
  intro k hk
  rw [List.length_append] at hk
  by_cases hlt : k < l1.length
  · obtain ⟨r, hr, hcum, hend⟩ := h1 k hlt
    refine ⟨r, by rw [List.getElem?_append_left hlt]; exact hr, ?_, hend⟩
    rw [hcum]
    congr 2
    rw [List.take_append_eq_append_take]
    have : k + 1 - l1.length = 0 := by omega
    rw [this, List.take_zero, List.append_nil]
  · have hge : l1.length ≤ k := by omega
    obtain ⟨r, hr, hcum, hend⟩ := h2 (k - l1.length) (by omega)
    refine ⟨r, by rw [List.getElem?_append_right hge]; exact hr, ?_, hend⟩
    rw [hcum]
    have htake : (l1 ++ l2).take (k + 1) = l1 ++ l2.take (k + 1 - l1.length) := by
      rw [List.take_append_eq_append_take,
        List.take_of_length_le (by omega : l1.length ≤ k + 1)]
    rw [htake, List.map_append, List.sum_append]
    have hidx : k + 1 - l1.length = k - l1.length + 1 := by omega
    rw [hidx]
    ring

theorem linkedFrom_append {l1 l2 : List WeeklyPlan} {last0 : Option ℝ}
    {r1 r2 : ℕ → ℝ}
    (h1 : LinkedFrom l1 last0 r1)
    (h2 : LinkedFrom l2
      (if l1.length = 0 then last0 else some (r1 (l1.length - 1))) r2) :
    LinkedFrom (l1 ++ l2) last0
      (fun k => if k < l1.length then r1 k else r2 (k - l1.length)) := by
  intro k hk
  rw [List.length_append] at hk
  by_cases hlt : k < l1.length
  · obtain ⟨r, hr, htc, hch⟩ := h1 k hlt
    refine ⟨r, by rw [List.getElem?_append_left hlt]; exact hr, ?_, ?_⟩
    · rw [htc]; simp only [if_pos hlt]
    · rw [hch]
      rcases Nat.eq_zero_or_pos k with hk0 | hkpos
      · subst hk0
        simp only [if_pos hlt, if_true]
      · have h0 : ¬ k = 0 := by omega
        have hlt1 : k - 1 < l1.length := by omega
        simp only [h0, if_false, if_pos hlt, if_pos hlt1]
  · have hge : l1.length ≤ k := by omega
    obtain ⟨r, hr, htc, hch⟩ := h2 (k - l1.length) (by omega)
    have hnlt : ¬ k < l1.length := hlt
    refine ⟨r, by rw [List.getElem?_append_right hge]; exact hr, ?_, ?_⟩
    · rw [htc]; simp only [hnlt, if_false]
    · rw [hch]
      simp only [hnlt, if_false]
      rcases Nat.eq_zero_or_pos (k - l1.length) with hj0 | hjpos
      · rw [hj0]
        rcases Nat.eq_zero_or_pos l1.length with hl0 | hlpos
        · have hk0 : k = 0 := by omega
          simp [hl0, hk0]
        · have hk0 : ¬ k = 0 := by omega
          have hlen0 : ¬ l1.length = 0 := by omega
          have hklt : k - 1 < l1.length := by omega
          have heq : k - 1 = l1.length - 1 := by omega
          simp [hk0, hlen0, hklt, heq, hlpos]
      · have hk0 : ¬ k = 0 := by omega
        have hjne : ¬ k - l1.length = 0 := by omega
        have hknlt : ¬ k - 1 < l1.length := by omega
        have hj : k - l1.length - 1 = k - 1 - l1.length := by omega
        simp only [hk0, hjne, if_false, hknlt, hj]

theorem runWeeks_shapeFrom (ph : PhaseName) (t e : ℕ → ℝ) (w : ℕ → ℝ → ℝ)
    (n i : ℕ) (st : SimState) :
    ShapeFrom (runWeeks ph t e w n i st).1 st.currentWeekNumber st.currentDate := by
  intro k hk
  rw [runWeeks_length] at hk
  obtain ⟨r, hr, _, hwk, hsd, hed, _⟩ := runWeeks_get ph t e w n i st k hk
  exact ⟨r, hr, hwk, hsd, hed⟩

theorem reverseLoop_shapeFrom (incr T : ℝ) (e : ℕ → ℝ) (fuel i : ℕ)
    (cur : ℝ) (st : SimState) :
    ShapeFrom (reverseLoop incr T e fuel i cur st).1
      st.currentWeekNumber st.currentDate := by
  intro k hk
  obtain ⟨r, hr, _, hwk, hsd, hed, _⟩ :=
    reverseLoop_get incr T e fuel i cur st k hk
  exact ⟨r, hr, hwk, hsd, hed⟩

theorem runWeeks_cumFrom (ph : PhaseName) (t e : ℕ → ℝ) (w : ℕ → ℝ → ℝ)
    (n i : ℕ) (st : SimState) :
    CumFrom (runWeeks ph t e w n i st).1 st.cumulativeWeightChangeKg
      (st.currentWeightKg - st.cumulativeWeightChangeKg) := by
  intro k hk
  rw [runWeeks_length] at hk
  obtain ⟨r, hr, _, _, _, _, _, _, _, _, _, hcum, hend⟩ :=
    runWeeks_get ph t e w n i st k hk
  refine ⟨r, hr, hcum, ?_⟩
  rw [hend, hcum]
  ring

theorem reverseLoop_cumFrom (incr T : ℝ) (e : ℕ → ℝ) (fuel i : ℕ)
    (cur : ℝ) (st : SimState) :
    CumFrom (reverseLoop incr T e fuel i cur st).1
      st.cumulativeWeightChangeKg
      (st.currentWeightKg - st.cumulativeWeightChangeKg) := by
  intro k hk
  obtain ⟨r, hr, _, _, _, _, _, _, _, hcum, hend⟩ :=
    reverseLoop_get incr T e fuel i cur st k hk
  refine ⟨r, hr, hcum, ?_⟩
  rw [hend, hcum]
  ring

theorem runWeeks_linkedFrom (ph : PhaseName) (t e : ℕ → ℝ) (w : ℕ → ℝ → ℝ)
    (n i : ℕ) (st : SimState) :
    LinkedFrom (runWeeks ph t e w n i st).1 st.lastWeekCalories
      (fun k => t (i + k)) := by
  intro k hk
  rw [runWeeks_length] at hk
  obtain ⟨r, hr, _, _, _, _, htc, _, _, _, hch, _, _⟩ :=
    runWeeks_get ph t e w n i st k hk
  refine ⟨r, hr, htc, ?_⟩
  rw [hch]
  rcases Nat.eq_zero_or_pos k with hk0 | hkpos
  · subst hk0; rfl
  · have h0 : ¬ k = 0 := by omega
    simp only [h0, if_false]
    have : i + k - 1 = i + (k - 1) := by omega
    rw [this]

theorem reverseLoop_linkedFrom (incr T : ℝ) (e : ℕ → ℝ) (fuel i : ℕ)
    (cur : ℝ) (st : SimState) :
    LinkedFrom (reverseLoop incr T e fuel i cur st).1 st.lastWeekCalories
      (revTarget incr T cur) := by
  intro k hk
  obtain ⟨r, hr, _, _, _, _, htc, _, hch, _, _⟩ :=
    reverseLoop_get incr T e fuel i cur st k hk
  exact ⟨r, hr, htc, hch⟩

theorem runWeeks_phase (ph : PhaseName) (t e : ℕ → ℝ) (w : ℕ → ℝ → ℝ) :
    ∀ (n i : ℕ) (st : SimState) (r : WeeklyPlan),
      r ∈ (runWeeks ph t e w n i st).1 → r.phaseName = ph := by
  intro n
  induction n with
  | zero => intro i st r hr; rw [runWeeks_zero] at hr; simp at hr
  | succ n ih =>
    intro i st r hr
    rw [runWeeks_succ] at hr
    rcases List.mem_cons.mp hr with h | h
    · rw [h]; rfl
    · exact ih _ _ r h

theorem reverseLoop_phase (incr T : ℝ) (e : ℕ → ℝ) :
    ∀ (fuel i : ℕ) (cur : ℝ) (st : SimState) (r : WeeklyPlan),
      r ∈ (reverseLoop incr T e fuel i cur st).1 →
      r.phaseName = .reverseDiet := by
  intro fuel
  induction fuel with
  | zero => intro i cur st r hr; rw [reverseLoop_zero] at hr; simp at hr
  | succ fuel ih =>
    intro i cur st r hr
    rw [reverseLoop_succ] at hr
    by_cases hbr : T ≤ min (cur + incr) T
    · rw [if_pos hbr] at hr
      simp only [List.mem_singleton] at hr
      rw [hr]; rfl
    · rw [if_neg hbr] at hr
      rcases List.mem_cons.mp hr with h | h
      · rw [h]; rfl
      · exact ih _ _ _ r h

/-! ### Plan-level structure -/

theorem run1_length (i : PlanInput) (d : ℤ) : ((run1 i d).1).length = 1 :=
  runWeeks_length _ _ _ _ _ _ _

theorem run2_length (i : PlanInput) (d : ℤ) :
    ((run2 i d).1).length = (deficitDurationWeeks i).toNat :=
  runWeeks_length _ _ _ _ _ _ _

theorem run3_length (i : PlanInput) (d : ℤ) : ((run3 i d).1).length = 2 :=
  runWeeks_length _ _ _ _ _ _ _

theorem run5_length (i : PlanInput) (d : ℤ) : ((run5 i d).1).length = 1 :=
  runWeeks_length _ _ _ _ _ _ _

theorem planCore_eq (i : PlanInput) (d : ℤ) :
    generatePlanCore i d =
      (run1 i d).1 ++ (run2 i d).1 ++ (run3 i d).1 ++ (run4 i d).1 ++
        (run5 i d).1 := rfl

theorem planCore_length (i : PlanInput) (d : ℤ) :
    (generatePlanCore i d).length =
      1 + (deficitDurationWeeks i).toNat + 2 + ((run4 i d).1).length + 1 := by
  rw [planCore_eq]
  simp only [List.length_append, run1_length, run2_length, run3_length,
    run5_length]

theorem map_phase_replicate {l : List WeeklyPlan} {ph : PhaseName}
    (h : ∀ r ∈ l, r.phaseName = ph) :
    l.map (fun r => r.phaseName) = List.replicate l.length ph := by
  apply List.eq_replicate_iff.mpr
  refine ⟨by simp, ?_⟩
  intro b hb
  obtain ⟨r, hr, hb⟩ := List.mem_map.mp hb
  rw [← hb]
  exact h r hr

theorem planCore_phases (i : PlanInput) (d : ℤ) :
    (generatePlanCore i d).map (fun r => r.phaseName) =
      List.replicate 1 PhaseName.initialMaintenance ++
      List.replicate (deficitDurationWeeks i).toNat PhaseName.calorieDeficit ++
      List.replicate 2 PhaseName.postDeficitMaintenance ++
      List.replicate ((run4 i d).1).length PhaseName.reverseDiet ++
      List.replicate 1 PhaseName.newMaintenance := by
  rw [planCore_eq]
  rw [List.map_append, List.map_append, List.map_append, List.map_append]
  have h1 : ((run1 i d).1).map (fun r => r.phaseName) =
      List.replicate 1 PhaseName.initialMaintenance := by
    rw [← run1_length i d]
    exact map_phase_replicate (fun r hr => runWeeks_phase _ _ _ _ _ _ _ r hr)
  have h2 : ((run2 i d).1).map (fun r => r.phaseName) =
      List.replicate (deficitDurationWeeks i).toNat PhaseName.calorieDeficit := by
    rw [← run2_length i d]
    exact map_phase_replicate (fun r hr => runWeeks_phase _ _ _ _ _ _ _ r hr)
  have h3 : ((run3 i d).1).map (fun r => r.phaseName) =
      List.replicate 2 PhaseName.postDeficitMaintenance := by
    rw [← run3_length i d]
    exact map_phase_replicate (fun r hr => runWeeks_phase _ _ _ _ _ _ _ r hr)
  have h4 : ((run4 i d).1).map (fun r => r.phaseName) =
      List.replicate ((run4 i d).1).length PhaseName.reverseDiet :=
    map_phase_replicate (fun r hr => reverseLoop_phase _ _ _ _ _ _ _ r hr)
  have h5 : ((run5 i d).1).map (fun r => r.phaseName) =
      List.replicate 1 PhaseName.newMaintenance := by
    rw [← run5_length i d]
    exact map_phase_replicate (fun r hr => runWeeks_phase _ _ _ _ _ _ _ r hr)
  rw [h1, h2, h3, h4, h5]

theorem shapeSeg_append {l1 l2 : List WeeklyPlan} {s0 s1 s2 : SimState}
    (h1 : ShapeSeg l1 s0 s1) (h2 : ShapeSeg l2 s1 s2) :
    ShapeSeg (l1 ++ l2) s0 s2 := by
  obtain ⟨hf1, hw1, hd1⟩ := h1
  obtain ⟨hf2, hw2, hd2⟩ := h2
  refine ⟨?_, ?_, ?_⟩
  · apply shapeFrom_append hf1
    rw [hw1, hd1] at hf2
    exact hf2
  · rw [hw2, hw1, List.length_append]
    omega
  · rw [hd2, hd1, List.length_append]
    push_cast
    ring

theorem cumSeg_append {l1 l2 : List WeeklyPlan} {s0 s1 s2 : SimState}
    (h1 : CumSeg l1 s0 s1) (h2 : CumSeg l2 s1 s2) :
    CumSeg (l1 ++ l2) s0 s2 := by
  obtain ⟨hf1, hc1, hw1⟩ := h1
  obtain ⟨hf2, hc2, hw2⟩ := h2
  have hWeq : s1.currentWeightKg - s1.cumulativeWeightChangeKg =
      s0.currentWeightKg - s0.cumulativeWeightChangeKg := by
    rw [hw1, hc1]; ring
  refine ⟨?_, ?_, ?_⟩
  · apply cumFrom_append hf1
    rw [hWeq, hc1] at hf2
    exact hf2
  · rw [hc2, hc1, List.map_append, List.sum_append]
    ring
  · rw [hw2, hw1, List.map_append, List.sum_append]
    ring

theorem linkedSeg_append {l1 l2 : List WeeklyPlan} {r1 r2 : ℕ → ℝ}
    {s0 s1 s2 : SimState}
    (h1 : LinkedSeg l1 r1 s0 s1) (h2 : LinkedSeg l2 r2 s1 s2) :
    LinkedSeg (l1 ++ l2)
      (fun k => if k < l1.length then r1 k else r2 (k - l1.length)) s0 s2 := by
  obtain ⟨hf1, hl1⟩ := h1
  obtain ⟨hf2, hl2⟩ := h2
  refine ⟨?_, ?_⟩
  · apply linkedFrom_append hf1
    rw [hl1] at hf2
    exact hf2
  · rw [hl2, hl1, List.length_append]
    rcases Nat.eq_zero_or_pos l2.length with h20 | h2pos
    · rw [h20]
      simp only [if_pos rfl, Nat.add_zero]
      rcases Nat.eq_zero_or_pos l1.length with h10 | h1pos
      · simp [h10]
      · have hne : ¬ l1.length = 0 := by omega
        simp only [hne, if_false]
        have hlt : l1.length - 1 < l1.length := by omega
        simp [hlt]
    · have hne2 : ¬ l2.length = 0 := by omega
      have hneS : ¬ l1.length + l2.length = 0 := by omega
      simp only [hne2, hneS, if_false]
      have hge : ¬ l1.length + l2.length - 1 < l1.length := by omega
      simp only [hge, if_false]
      have : l1.length + l2.length - 1 - l1.length = l2.length - 1 := by omega
      rw [this]

theorem runWeeks_shapeSeg (ph : PhaseName) (t e : ℕ → ℝ) (w : ℕ → ℝ → ℝ)
    (n i : ℕ) (st : SimState) :
    ShapeSeg (runWeeks ph t e w n i st).1 st (runWeeks ph t e w n i st).2 := by
  obtain ⟨h1, h2, _⟩ := runWeeks_snd ph t e w n i st
  refine ⟨runWeeks_shapeFrom ph t e w n i st, ?_, ?_⟩
  · rw [runWeeks_length]; exact h1
  · rw [runWeeks_length]; exact h2

theorem reverseLoop_shapeSeg (incr T : ℝ) (e : ℕ → ℝ) (fuel i : ℕ)
    (cur : ℝ) (st : SimState) :
    ShapeSeg (reverseLoop incr T e fuel i cur st).1 st
      (reverseLoop incr T e fuel i cur st).2 := by
  obtain ⟨h1, h2, _⟩ := reverseLoop_snd incr T e fuel i cur st
  exact ⟨reverseLoop_shapeFrom incr T e fuel i cur st, h1, h2⟩

theorem runWeeks_cumSeg (ph : PhaseName) (t e : ℕ → ℝ) (w : ℕ → ℝ → ℝ)
    (n i : ℕ) (st : SimState) :
    CumSeg (runWeeks ph t e w n i st).1 st (runWeeks ph t e w n i st).2 := by
  obtain ⟨_, _, _, h4, h5⟩ := runWeeks_snd ph t e w n i st
  exact ⟨runWeeks_cumFrom ph t e w n i st, h4, h5⟩

theorem reverseLoop_cumSeg (incr T : ℝ) (e : ℕ → ℝ) (fuel i : ℕ)
    (cur : ℝ) (st : SimState) :
    CumSeg (reverseLoop incr T e fuel i cur st).1 st
      (reverseLoop incr T e fuel i cur st).2 := by
  obtain ⟨_, _, _, h4, h5⟩ := reverseLoop_snd incr T e fuel i cur st
  exact ⟨reverseLoop_cumFrom incr T e fuel i cur st, h4, h5⟩

theorem runWeeks_linkedSeg (ph : PhaseName) (t e : ℕ → ℝ) (w : ℕ → ℝ → ℝ)
    (n i : ℕ) (st : SimState) :
    LinkedSeg (runWeeks ph t e w n i st).1 (fun k => t (i + k)) st
      (runWeeks ph t e w n i st).2 := by
  obtain ⟨_, _, h3, _⟩ := runWeeks_snd ph t e w n i st
  refine ⟨runWeeks_linkedFrom ph t e w n i st, ?_⟩
  rw [h3, runWeeks_length]
  rcases Nat.eq_zero_or_pos n with hn | hn
  · simp [hn]
  · have hne : ¬ n = 0 := by omega
    simp only [hne, if_false]
    have : i + n - 1 = i + (n - 1) := by omega
    rw [this]

theorem reverseLoop_linkedSeg (incr T : ℝ) (e : ℕ → ℝ) (fuel i : ℕ)
    (cur : ℝ) (st : SimState) :
    LinkedSeg (reverseLoop incr T e fuel i cur st).1 (revTarget incr T cur) st
      (reverseLoop incr T e fuel i cur st).2 := by
  obtain ⟨_, _, h3, _⟩ := reverseLoop_snd incr T e fuel i cur st
  exact ⟨reverseLoop_linkedFrom incr T e fuel i cur st, h3⟩

theorem planCore_shapeSeg (i : PlanInput) (d : ℤ) :
    ShapeSeg (generatePlanCore i d) (state0 i d) (run5 i d).2 := by
  have hA : ShapeSeg (run1 i d).1 (state0 i d) (run1 i d).2 :=
    runWeeks_shapeSeg _ _ _ _ _ _ _
  have hB : ShapeSeg (run2 i d).1 (run1 i d).2 (run2 i d).2 :=
    runWeeks_shapeSeg _ _ _ _ _ _ _
  have hC : ShapeSeg (run3 i d).1 (run2 i d).2 (run3 i d).2 :=
    runWeeks_shapeSeg _ _ _ _ _ _ _
  have hD : ShapeSeg (run4 i d).1 (run3 i d).2 (run4 i d).2 :=
    reverseLoop_shapeSeg _ _ _ _ _ _ _
  have hE : ShapeSeg (run5 i d).1 (run4 i d).2 (run5 i d).2 :=
    runWeeks_shapeSeg _ _ _ _ _ _ _
  exact shapeSeg_append
    (shapeSeg_append (shapeSeg_append (shapeSeg_append hA hB) hC) hD) hE

theorem planCore_shape (i : PlanInput) (d : ℤ) :
    ShapeFrom (generatePlanCore i d) 1 d := by
  have h := (planCore_shapeSeg i d).1
  simpa [state0] using h

theorem planCore_cumSeg (i : PlanInput) (d : ℤ) :
    CumSeg (generatePlanCore i d) (state0 i d) (run5 i d).2 := by
  have hA : CumSeg (run1 i d).1 (state0 i d) (run1 i d).2 :=
    runWeeks_cumSeg _ _ _ _ _ _ _
  have hB : CumSeg (run2 i d).1 (run1 i d).2 (run2 i d).2 :=
    runWeeks_cumSeg _ _ _ _ _ _ _
  have hC : CumSeg (run3 i d).1 (run2 i d).2 (run3 i d).2 :=
    runWeeks_cumSeg _ _ _ _ _ _ _
  have hD : CumSeg (run4 i d).1 (run3 i d).2 (run4 i d).2 :=
    reverseLoop_cumSeg _ _ _ _ _ _ _
  have hE : CumSeg (run5 i d).1 (run4 i d).2 (run5 i d).2 :=
    runWeeks_cumSeg _ _ _ _ _ _ _
  exact cumSeg_append
    (cumSeg_append (cumSeg_append (cumSeg_append hA hB) hC) hD) hE

theorem planCore_cum (i : PlanInput) (d : ℤ) :
    CumFrom (generatePlanCore i d) 0 i.weightKg := by
  have h := (planCore_cumSeg i d).1
  simpa [state0] using h

theorem planCore_linked (i : PlanInput) (d : ℤ) :
    ∃ raw : ℕ → ℝ, LinkedFrom (generatePlanCore i d) none raw := by
  have hA : LinkedSeg (run1 i d).1 (fun _ => i.currentMaintenanceCalories)
      (state0 i d) (run1 i d).2 := runWeeks_linkedSeg _ _ _ _ _ _ _
  have hB : LinkedSeg (run2 i d).1 (fun _ => deficitCalories i)
      (run1 i d).2 (run2 i d).2 := runWeeks_linkedSeg _ _ _ _ _ _ _
  have hC : LinkedSeg (run3 i d).1 (fun _ => deficitCalories i)
      (run2 i d).2 (run3 i d).2 := runWeeks_linkedSeg _ _ _ _ _ _ _
  have hD : LinkedSeg (run4 i d).1
      (revTarget i.weeklyReverseIncreaseKcal i.targetFinalMaintenanceCalories
        (deficitCalories i))
      (run3 i d).2 (run4 i d).2 := reverseLoop_linkedSeg _ _ _ _ _ _ _
  have hE : LinkedSeg (run5 i d).1 (fun _ => i.targetFinalMaintenanceCalories)
      (run4 i d).2 (run5 i d).2 := runWeeks_linkedSeg _ _ _ _ _ _ _
  exact ⟨_, (linkedSeg_append
    (linkedSeg_append (linkedSeg_append (linkedSeg_append hA hB) hC) hD)
    hE).1⟩

theorem deficitDurationWeeks_bounds (i : PlanInput) :
    4 ≤ deficitDurationWeeks i ∧ deficitDurationWeeks i ≤ 52 := by
  unfold deficitDurationWeeks
  constructor
  · exact le_max_left _ _
  · exact max_le (by norm_num) (min_le_right _ _)

theorem deficitDurationWeeks_toNat_bounds (i : PlanInput) :
    4 ≤ (deficitDurationWeeks i).toNat ∧ (deficitDurationWeeks i).toNat ≤ 52 := by
  obtain ⟨h1, h2⟩ := deficitDurationWeeks_bounds i
  omega

theorem planCore_idx_run2 (i : PlanInput) (d : ℤ) (k : ℕ)
    (hk : k < (deficitDurationWeeks i).toNat) :
    (generatePlanCore i d)[1 + k]? = ((run2 i d).1)[k]? := by
  rw [planCore_eq]
  rw [List.getElem?_append_left (by
    simp only [List.length_append, run1_length, run2_length, run3_length]
    omega)]
  rw [List.getElem?_append_left (by
    simp only [List.length_append, run1_length, run2_length, run3_length]
    omega)]
  rw [List.getElem?_append_left (by
    simp only [List.length_append, run1_length, run2_length]
    omega)]
  rw [List.getElem?_append_right (by rw [run1_length]; omega)]
  rw [run1_length]
  congr 1
  omega

theorem planCore_idx_run4 (i : PlanInput) (d : ℤ) (k : ℕ)
    (hk : k < ((run4 i d).1).length) :
    (generatePlanCore i d)[3 + (deficitDurationWeeks i).toNat + k]? =
      ((run4 i d).1)[k]? := by
  rw [planCore_eq]
  rw [List.getElem?_append_left (by
    simp only [List.length_append, run1_length, run2_length, run3_length]
    omega)]
  rw [List.getElem?_append_right (by
    simp only [List.length_append, run1_length, run2_length, run3_length]
    omega)]
  simp only [List.length_append, run1_length, run2_length, run3_length]
  congr 1
  omega

theorem planCore_idx_run1 (i : PlanInput) (d : ℤ) :
    (generatePlanCore i d)[0]? = ((run1 i d).1)[0]? := by
  rw [planCore_eq]
  rw [List.getElem?_append_left (by
    simp only [List.length_append, run1_length, run2_length, run3_length]
    omega)]
  rw [List.getElem?_append_left (by
    simp only [List.length_append, run1_length, run2_length, run3_length]
    have := deficitDurationWeeks_toNat_bounds i
    omega)]
  rw [List.getElem?_append_left (by
    simp only [List.length_append, run1_length, run2_length]
    have := deficitDurationWeeks_toNat_bounds i
    omega)]
  rw [List.getElem?_append_left (by rw [run1_length]; omega)]

/-! ### Properties of the metabolic and adaptation models -/

theorem adaptationFactor_le_one (w : ℝ) : calculateAdaptationFactor w ≤ 1 := by
  unfold calculateAdaptationFactor
  have h : (0 : ℝ) ≤ min (ADAPTATION_RATE * Real.sqrt (w / 4.33)) MAX_ADAPTATION := by
    apply le_min
    · have := Real.sqrt_nonneg (w / 4.33)
      unfold ADAPTATION_RATE
      nlinarith
    · unfold MAX_ADAPTATION; norm_num
  linarith

theorem adaptationFactor_ge (w : ℝ) :
    1 - MAX_ADAPTATION ≤ calculateAdaptationFactor w := by
  unfold calculateAdaptationFactor
  have h := min_le_right (ADAPTATION_RATE * Real.sqrt (w / 4.33)) MAX_ADAPTATION
  simp only
  linarith

theorem adaptationFactor_zero : calculateAdaptationFactor 0 = 1 := by
  show 1 - min (ADAPTATION_RATE * Real.sqrt (0 / 4.33)) MAX_ADAPTATION = 1
  rw [zero_div, Real.sqrt_zero, mul_zero]
  rw [min_eq_left (by unfold MAX_ADAPTATION; norm_num)]
  norm_num

theorem adaptationFactor_anti {w1 w2 : ℝ} (_h0 : 0 ≤ w1) (h12 : w1 ≤ w2) :
    calculateAdaptationFactor w2 ≤ calculateAdaptationFactor w1 := by
  unfold calculateAdaptationFactor
  simp only
  have hs : Real.sqrt (w1 / 4.33) ≤ Real.sqrt (w2 / 4.33) :=
    Real.sqrt_le_sqrt (by gcongr)
  have : min (ADAPTATION_RATE * Real.sqrt (w1 / 4.33)) MAX_ADAPTATION ≤
      min (ADAPTATION_RATE * Real.sqrt (w2 / 4.33)) MAX_ADAPTATION := by
    apply min_le_min _ le_rfl
    unfold ADAPTATION_RATE
    nlinarith
  linarith

theorem adaptationFactor_strict {w1 w2 : ℝ} (h0 : 0 ≤ w1) (h12 : w1 < w2)
    (h2 : w2 < 9 * 4.33) :
    calculateAdaptationFactor w2 < calculateAdaptationFactor w1 := by
  unfold calculateAdaptationFactor
  simp only
  have hd1 : (0 : ℝ) ≤ w1 / 4.33 := by positivity
  have hd12 : w1 / 4.33 < w2 / 4.33 := by
    apply div_lt_div_of_pos_right h12
    norm_num
  have hs : Real.sqrt (w1 / 4.33) < Real.sqrt (w2 / 4.33) :=
    Real.sqrt_lt_sqrt hd1 hd12
  have hcap : Real.sqrt (w2 / 4.33) < 3 := by
    rw [Real.sqrt_lt' (by norm_num : (0 : ℝ) < 3)]
    rw [div_lt_iff₀ (by norm_num : (0 : ℝ) < 4.33)]
    nlinarith
  have ha2 : ADAPTATION_RATE * Real.sqrt (w2 / 4.33) < MAX_ADAPTATION := by
    unfold ADAPTATION_RATE MAX_ADAPTATION
    nlinarith [Real.sqrt_nonneg (w2 / 4.33)]
  have ha1 : ADAPTATION_RATE * Real.sqrt (w1 / 4.33) <
      ADAPTATION_RATE * Real.sqrt (w2 / 4.33) := by
    unfold ADAPTATION_RATE
    nlinarith
  rw [min_eq_left (le_of_lt ha2), min_eq_left (le_of_lt (lt_trans ha1 ha2))]
  linarith

theorem adaptationFactor_floor {w : ℝ} (h : 9 * 4.33 ≤ w) :
    calculateAdaptationFactor w = 1 - MAX_ADAPTATION := by
  unfold calculateAdaptationFactor
  simp only
  have hd : (9 : ℝ) ≤ w / 4.33 := by
    rw [le_div_iff₀ (by norm_num : (0 : ℝ) < 4.33)]
    linarith
  have hs : (3 : ℝ) ≤ Real.sqrt (w / 4.33) := by
    rw [Real.le_sqrt (by norm_num : (0 : ℝ) ≤ 3) (by linarith : (0 : ℝ) ≤ w / 4.33)]
    nlinarith
  have ha : MAX_ADAPTATION ≤ ADAPTATION_RATE * Real.sqrt (w / 4.33) := by
    unfold ADAPTATION_RATE MAX_ADAPTATION
    nlinarith
  rw [min_eq_right ha]

/-- C9: the Mifflin-St Jeor basal formula matches the reference for each
sex, expenditure is basal times the activity multiplier, and the five
multipliers lie in the interval 1.2 to 1.9, strictly increasing with the
activity level's position in the enum. -/
theorem C9_theorem :
    (∀ w h a : ℝ, calculateBMR w h a Sex.male = 10 * w + 6.25 * h - 5 * a + 5 ∧
      calculateBMR w h a Sex.female = 10 * w + 6.25 * h - 5 * a - 161) ∧
    (∀ (b : ℝ) (l : ActivityLevel),
      calculateTDEE b l = b * activityMultipliers l) ∧
    (∀ l : ActivityLevel,
      1.2 ≤ activityMultipliers l ∧ activityMultipliers l ≤ 1.9) ∧
    (∀ l1 l2 : ActivityLevel, activityIndex l1 < activityIndex l2 →
      activityMultipliers l1 < activityMultipliers l2) := by
  refine ⟨fun w h a => ⟨rfl, rfl⟩, fun b l => rfl, ?_, ?_⟩
  · intro l
    cases l <;> constructor <;> norm_num [activityMultipliers]
  · intro l1 l2 h
    cases l1 <;> cases l2 <;>
      first
        | (norm_num [activityMultipliers]; done)
        | simp [activityIndex] at h

/-- Witness for C9 at a concrete pair of activity levels. -/
theorem C9_witness :
    activityIndex ActivityLevel.sedentary <
      activityIndex ActivityLevel.extraActive ∧
    activityMultipliers ActivityLevel.sedentary <
      activityMultipliers ActivityLevel.extraActive :=
  ⟨by decide, C9_theorem.2.2.2 ActivityLevel.sedentary ActivityLevel.extraActive
    (by decide)⟩

/-- C1 (amended): the adaptation factor is 1 at week 0, non-increasing in
the weeks spent in deficit, lies in the closed interval from
1 - MAX_ADAPTATION to 1, is strictly decreasing while the suppression term
is below its cap (weeks below 9 * 4.33), and is exactly 1 - MAX_ADAPTATION
from 9 * 4.33 weeks on - the floor is attained, not approached
asymptotically. -/
theorem C1_theorem :
    calculateAdaptationFactor 0 = 1 ∧
    (∀ w1 w2 : ℝ, 0 ≤ w1 → w1 ≤ w2 →
      calculateAdaptationFactor w2 ≤ calculateAdaptationFactor w1) ∧
    (∀ w : ℝ, 0 ≤ w → 1 - MAX_ADAPTATION ≤ calculateAdaptationFactor w ∧
      calculateAdaptationFactor w ≤ 1) ∧
    (∀ w1 w2 : ℝ, 0 ≤ w1 → w1 < w2 → w2 < 9 * 4.33 →
      calculateAdaptationFactor w2 < calculateAdaptationFactor w1) ∧
    (∀ w : ℝ, 9 * 4.33 ≤ w →
      calculateAdaptationFactor w = 1 - MAX_ADAPTATION) :=
  ⟨adaptationFactor_zero,
   fun _ _ h0 h12 => adaptationFactor_anti h0 h12,
   fun w _ => ⟨adaptationFactor_ge w, adaptationFactor_le_one w⟩,
   fun _ _ h0 h12 h2 => adaptationFactor_strict h0 h12 h2,
   fun _ h => adaptationFactor_floor h⟩

/-- Witness for C1 at concrete weeks. -/
theorem C1_witness :
    ((0 : ℝ) ≤ 1 ∧ (1 : ℝ) ≤ 2 ∧
      calculateAdaptationFactor 2 ≤ calculateAdaptationFactor 1) ∧
    ((0 : ℝ) ≤ 5 ∧ 1 - MAX_ADAPTATION ≤ calculateAdaptationFactor 5 ∧
      calculateAdaptationFactor 5 ≤ 1) ∧
    ((0 : ℝ) ≤ 1 ∧ (1 : ℝ) < 2 ∧ (2 : ℝ) < 9 * 4.33 ∧
      calculateAdaptationFactor 2 < calculateAdaptationFactor 1) ∧
    (9 * 4.33 ≤ (40 : ℝ) ∧
      calculateAdaptationFactor 40 = 1 - MAX_ADAPTATION) := by
  refine ⟨⟨by norm_num, by norm_num,
      C1_theorem.2.1 1 2 (by norm_num) (by norm_num)⟩,
    ⟨by norm_num, (C1_theorem.2.2.1 5 (by norm_num)).1,
      (C1_theorem.2.2.1 5 (by norm_num)).2⟩,
    ⟨by norm_num, by norm_num, by norm_num,
      C1_theorem.2.2.2.1 1 2 (by norm_num) (by norm_num) (by norm_num)⟩,
    ⟨by norm_num, C1_theorem.2.2.2.2 40 (by norm_num)⟩⟩

/-- Counterexample to C1 as stated: at 39 and 40 weeks the factor has
already reached the floor 1 - MAX_ADAPTATION (since 39 is at least
9 * 4.33 = 38.97), so it is not strictly decreasing there and does not lie
in the open interval above the floor. -/
theorem C1_counterexample :
    calculateAdaptationFactor 40 = calculateAdaptationFactor 39 ∧
    ¬ (calculateAdaptationFactor 40 < calculateAdaptationFactor 39) ∧
    ¬ (1 - MAX_ADAPTATION < calculateAdaptationFactor 39) := by
  have h39 : calculateAdaptationFactor 39 = 1 - MAX_ADAPTATION :=
    adaptationFactor_floor (by norm_num)
  have h40 : calculateAdaptationFactor 40 = 1 - MAX_ADAPTATION :=
    adaptationFactor_floor (by norm_num)
  refine ⟨by rw [h39, h40], ?_, ?_⟩
  · rw [h39, h40]; exact lt_irrefl _
  · rw [h39]; exact lt_irrefl _

/-- C10: the post-deficit recovery multiplier applied in the two
Post-Deficit Maintenance weeks is strictly smaller in the second week than
in the first whenever the inherited adaptation factor is positive, which
always holds since that factor is at least 0.85; hence the pre-rounding
post-deficit TDEE strictly drops whenever the base TDEE is positive. -/
theorem C10_theorem (i : PlanInput) :
    0.85 ≤ calculateAdaptationFactor ((deficitDurationWeeks i : ℤ) : ℝ) ∧
    postRecoveryFactor
        (calculateAdaptationFactor ((deficitDurationWeeks i : ℤ) : ℝ)) 1 <
      postRecoveryFactor
        (calculateAdaptationFactor ((deficitDurationWeeks i : ℤ) : ℝ)) 0 ∧
    (∀ base : ℝ, 0 < base →
      base * postRecoveryFactor
          (calculateAdaptationFactor ((deficitDurationWeeks i : ℤ) : ℝ)) 1 <
        base * postRecoveryFactor
          (calculateAdaptationFactor ((deficitDurationWeeks i : ℤ) : ℝ)) 0) := by
  have hge : 0.85 ≤ calculateAdaptationFactor ((deficitDurationWeeks i : ℤ) : ℝ) := by
    have h := adaptationFactor_ge ((deficitDurationWeeks i : ℤ) : ℝ)
    unfold MAX_ADAPTATION at h
    linarith
  have hlt : postRecoveryFactor
      (calculateAdaptationFactor ((deficitDurationWeeks i : ℤ) : ℝ)) 1 <
      postRecoveryFactor
      (calculateAdaptationFactor ((deficitDurationWeeks i : ℤ) : ℝ)) 0 := by
    unfold postRecoveryFactor
    norm_num
    nlinarith
  exact ⟨hge, hlt, fun base hb => by
    apply mul_lt_mul_of_pos_left hlt hb⟩

/-- Witness for C10 at a concrete input and base expenditure. -/
theorem C10_witness :
    (0 : ℝ) < 2000 ∧
    2000 * postRecoveryFactor
        (calculateAdaptationFactor ((deficitDurationWeeks exampleInput : ℤ) : ℝ)) 1 <
      2000 * postRecoveryFactor
        (calculateAdaptationFactor ((deficitDurationWeeks exampleInput : ℤ) : ℝ)) 0 :=
  ⟨by norm_num, (C10_theorem exampleInput).2.2 2000 (by norm_num)⟩

/-! ### Plan-level claim theorems -/

theorem generatePlan_ok {i : PlanInput} {p : List WeeklyPlan}
    (h : generatePlan i = Except.ok p) :
    ∃ d, parseDate i.startDate = some d ∧ p = generatePlanCore i d := by
  unfold generatePlan at h
  cases hparse : parseDate i.startDate with
  | none => rw [hparse] at h; simp at h
  | some d =>
    rw [hparse] at h
    simp at h
    exact ⟨d, rfl, h.symm⟩

theorem countP_replicate {α : Type} (f : α → Bool) (n : ℕ) (a : α) :
    (List.replicate n a).countP f = if f a then n else 0 := by
  induction n with
  | zero => simp
  | succ n ih =>
    rw [List.replicate_succ, List.countP_cons, ih]
    by_cases hf : f a <;> simp [hf]

theorem parseDate_example : parseDate "2024-01-01" = some 19723 := by decide

theorem generatePlan_example :
    generatePlan exampleInput =
      Except.ok (generatePlanCore exampleInput 19723) := by
  unfold generatePlan
  rw [show exampleInput.startDate = "2024-01-01" from rfl, parseDate_example]

theorem planCore_deficit_count (i : PlanInput) (d : ℤ) :
    (generatePlanCore i d).countP
        (fun r => decide (r.phaseName = PhaseName.calorieDeficit)) =
      (deficitDurationWeeks i).toNat := by
  have hstep : (generatePlanCore i d).countP
      (fun r => decide (r.phaseName = PhaseName.calorieDeficit)) =
      ((generatePlanCore i d).map (fun r => r.phaseName)).countP
        (fun ph => decide (ph = PhaseName.calorieDeficit)) := by
    rw [List.countP_map]
    rfl
  rw [hstep, planCore_phases]
  simp [List.countP_append, countP_replicate]

theorem validInput_example : ValidInput exampleInput := by
  refine ⟨?_, ?_, ?_, ?_, ?_, ?_, ?_, ?_⟩ <;> norm_num [exampleInput]

theorem planCore_length_pos (i : PlanInput) (d : ℤ) :
    0 < (generatePlanCore i d).length := by
  rw [planCore_length]
  omega

theorem get_eq_of_getElem? {α : Type} {l : List α} {k : ℕ} {r : α}
    (hk : k < l.length) (h : l[k]? = some r) : l.get ⟨k, hk⟩ = r := by
  rw [List.getElem?_eq_getElem hk] at h
  simpa [List.get_eq_getElem] using Option.some.inj h

/-- C2: the number of Calorie Deficit weeks in the generated plan is the
ceiling of targetWeightLossKg times 7700 over dailyDeficitKcal times 7,
scaled by 1.1 and clamped into the interval 4 to 52; in particular it
always lies between 4 and 52 inclusive. -/
theorem C2_theorem (i : PlanInput) (p : List WeeklyPlan)
    (hok : generatePlan i = Except.ok p) (_hv : ValidInput i) :
    p.countP (fun r => decide (r.phaseName = PhaseName.calorieDeficit)) =
      (max 4 (min ⌈i.targetWeightLossKg * 7700 / (i.dailyDeficitKcal * 7) * 1.1⌉
        52)).toNat ∧
    4 ≤ p.countP (fun r => decide (r.phaseName = PhaseName.calorieDeficit)) ∧
    p.countP (fun r => decide (r.phaseName = PhaseName.calorieDeficit)) ≤ 52 := by
  obtain ⟨d, hparse, hp⟩ := generatePlan_ok hok
  subst hp
  have hc := planCore_deficit_count i d
  have hdw : deficitDurationWeeks i =
      max 4 (min ⌈i.targetWeightLossKg * 7700 / (i.dailyDeficitKcal * 7) * 1.1⌉
        52) := rfl
  have hb := deficitDurationWeeks_toNat_bounds i
  refine ⟨by rw [hc, hdw], ?_, ?_⟩
  · rw [hc]; omega
  · rw [hc]; omega

/-- Witness for C2 at the spec's example input. -/
theorem C2_witness :
    (generatePlanCore exampleInput 19723).countP
        (fun r => decide (r.phaseName = PhaseName.calorieDeficit)) =
      (max 4 (min ⌈exampleInput.targetWeightLossKg * 7700 /
        (exampleInput.dailyDeficitKcal * 7) * 1.1⌉ 52)).toNat :=
  (C2_theorem exampleInput _ generatePlan_example validInput_example).1

/-- C4: week numbers are exactly 1..N in order, each record spans exactly
7 inclusive days, and each week's start date is the day after the previous
week's end date. -/
theorem C4_theorem (i : PlanInput) (p : List WeeklyPlan)
    (hok : generatePlan i = Except.ok p) (_hv : ValidInput i) (k : ℕ)
    (hk : k < p.length) :
    (p.get ⟨k, hk⟩).weekNumber = k + 1 ∧
    (p.get ⟨k, hk⟩).endDate = (p.get ⟨k, hk⟩).startDate + 6 ∧
    (∀ hk1 : k + 1 < p.length,
      (p.get ⟨k + 1, hk1⟩).startDate = (p.get ⟨k, hk⟩).endDate + 1) := by
  obtain ⟨d, hparse, hp⟩ := generatePlan_ok hok
  subst hp
  have hs := planCore_shape i d
  obtain ⟨r, hr, hwk, hsd, hed⟩ := hs k hk
  have hget := get_eq_of_getElem? hk hr
  rw [hget]
  refine ⟨by omega, by omega, ?_⟩
  intro hk1
  obtain ⟨r2, hr2, hwk2, hsd2, hed2⟩ := hs (k + 1) hk1
  have hget2 := get_eq_of_getElem? hk1 hr2
  rw [hget2, hsd2, hed]
  push_cast
  ring

/-- Witness for C4 at the spec's example input, week index 0. -/
theorem C4_witness :
    ((generatePlanCore exampleInput 19723).get
      ⟨0, planCore_length_pos exampleInput 19723⟩).weekNumber = 0 + 1 :=
  (C4_theorem exampleInput _ generatePlan_example validInput_example 0
    (planCore_length_pos exampleInput 19723)).1

/-- C5: each record's cumulative weight change is the sum of the weekly
weight changes up to and including it, and its end weight is the input
weight plus that cumulative change. -/
theorem C5_theorem (i : PlanInput) (p : List WeeklyPlan)
    (hok : generatePlan i = Except.ok p) (_hv : ValidInput i) (k : ℕ)
    (hk : k < p.length) :
    (p.get ⟨k, hk⟩).estimatedCumulativeWeightChangeKg =
      ((p.take (k + 1)).map (fun s => s.estimatedWeeklyWeightChangeKg)).sum ∧
    (p.get ⟨k, hk⟩).estimatedEndWeightKg =
      i.weightKg + (p.get ⟨k, hk⟩).estimatedCumulativeWeightChangeKg := by
  obtain ⟨d, hparse, hp⟩ := generatePlan_ok hok
  subst hp
  obtain ⟨r, hr, hcum, hend⟩ := planCore_cum i d k hk
  have hget := get_eq_of_getElem? hk hr
  rw [hget]
  rw [zero_add] at hcum
  exact ⟨hcum, hend⟩

/-- Witness for C5 at the spec's example input, week index 0. -/
theorem C5_witness :
    ((generatePlanCore exampleInput 19723).get
      ⟨0, planCore_length_pos exampleInput 19723⟩).estimatedEndWeightKg =
      exampleInput.weightKg +
        ((generatePlanCore exampleInput 19723).get
          ⟨0, planCore_length_pos exampleInput 19723⟩).estimatedCumulativeWeightChangeKg :=
  (C5_theorem exampleInput _ generatePlan_example validInput_example 0
    (planCore_length_pos exampleInput 19723)).2

/-- C6 (amended): the calorie change is null exactly on the week-1 record;
every later record's change is the rounding of the difference of the raw
(unrounded) weekly targets whose roundings are the stored targetCalories
of the current and previous record.  (When the calorie inputs are whole
numbers this coincides with the difference of the stored targets, but in
general it differs, see the counterexample.) -/
theorem C6_theorem (i : PlanInput) (p : List WeeklyPlan)
    (hok : generatePlan i = Except.ok p) (_hv : ValidInput i) (k : ℕ)
    (hk : k < p.length) :
    ((p.get ⟨k, hk⟩).calorieChangeFromPreviousWeek = none ↔
      (p.get ⟨k, hk⟩).weekNumber = 1) ∧
    (∀ j : ℕ, j + 1 = k → ∃ a b : ℝ,
      (p.get ⟨k, hk⟩).targetCalories = round a ∧
      p[j]?.map (fun r => r.targetCalories) = some (round b) ∧
      (p.get ⟨k, hk⟩).calorieChangeFromPreviousWeek = some (round (a - b))) := by
  obtain ⟨d, hparse, hp⟩ := generatePlan_ok hok
  subst hp
  obtain ⟨raw, hlinked⟩ := planCore_linked i d
  obtain ⟨r, hr, htc, hch⟩ := hlinked k hk
  have hget := get_eq_of_getElem? hk hr
  obtain ⟨r0, hr0, hwk, _, _⟩ := planCore_shape i d k hk
  have hr0r : r0 = r := by
    rw [hr] at hr0
    exact (Option.some.inj hr0).symm
  rw [hr0r] at hwk
  rw [hget]
  constructor
  · rw [hch]
    rcases Nat.eq_zero_or_pos k with hk0 | hkpos
    · subst hk0
      simp only [if_pos rfl, Option.map_none]
      constructor
      · intro _; omega
      · intro _; rfl
    · have hkne : ¬ k = 0 := by omega
      simp only [hkne, if_false, Option.map_some]
      constructor
      · intro h; exact absurd h (by simp)
      · intro h; omega
  · intro j hj
    have hjlt : j < (generatePlanCore i d).length := by omega
    obtain ⟨rj, hrj, htcj, _⟩ := hlinked j hjlt
    refine ⟨raw k, raw j, htc, ?_, ?_⟩
    · rw [hrj]
      simp [htcj]
    · rw [hch]
      have hkne : ¬ k = 0 := by omega
      have : k - 1 = j := by omega
      simp only [hkne, if_false, this]
      rfl

/-- Witness for C6 at the spec's example input, week index 0. -/
theorem C6_witness :
    ((generatePlanCore exampleInput 19723).get
      ⟨0, planCore_length_pos exampleInput 19723⟩).calorieChangeFromPreviousWeek
        = none ↔
    ((generatePlanCore exampleInput 19723).get
      ⟨0, planCore_length_pos exampleInput 19723⟩).weekNumber = 1 :=
  (C6_theorem exampleInput _ generatePlan_example validInput_example 0
    (planCore_length_pos exampleInput 19723)).1

/-- C7: in deficit week k (0-based) the efficiency factor is
max(0.9, 1 - 0.003 k) and the weekly weight change is the weekly balance
divided by 7700 times that factor - the divisor shrinks as efficiency
drops, so the magnitude of the weekly change scales with one over the
efficiency. -/
theorem C7_theorem (i : PlanInput) (p : List WeeklyPlan)
    (hok : generatePlan i = Except.ok p) (_hv : ValidInput i) (k : ℕ)
    (hk : k < (deficitDurationWeeks i).toNat) :
    efficiencyFactor k = max 0.9 (1 - 0.003 * (k : ℝ)) ∧
    p[1 + k]?.map (fun r => r.estimatedWeeklyWeightChangeKg) =
      some (((i.currentMaintenanceCalories - i.dailyDeficitKcal) * 7 -
        baseTdee i * calculateAdaptationFactor (k : ℝ) * 7) /
        (7700 * max 0.9 (1 - 0.003 * (k : ℝ)))) := by
  obtain ⟨d, hparse, hp⟩ := generatePlan_ok hok
  subst hp
  have heff : efficiencyFactor k = max 0.9 (1 - 0.003 * (k : ℝ)) := by
    unfold efficiencyFactor
    rw [mul_comm (k : ℝ) 0.003]
  refine ⟨heff, ?_⟩
  rw [planCore_idx_run2 i d k hk]
  obtain ⟨r, hr, _, _, _, _, _, _, _, hwc, _, _, _⟩ :=
    runWeeks_get PhaseName.calorieDeficit (fun _ => deficitCalories i)
      (fun k2 => baseTdee i * calculateAdaptationFactor (k2 : ℝ))
      (fun k2 b => b / (KCAL_PER_KG_FAT * efficiencyFactor k2))
      (deficitDurationWeeks i).toNat 0 (run1 i d).2 k hk
  have hr' : ((run2 i d).1)[k]? = some r := hr
  rw [hr', Option.map_some']
  congr 1
  rw [hwc]
  simp only [Nat.zero_add]
  rw [heff]
  unfold KCAL_PER_KG_FAT deficitCalories
  ring

/-- Witness for C7 at the spec's example input, deficit week 0. -/
theorem C7_witness :
    0 < (deficitDurationWeeks exampleInput).toNat ∧
    efficiencyFactor 0 = max 0.9 (1 - 0.003 * ((0 : ℕ) : ℝ)) := by
  have hb := deficitDurationWeeks_toNat_bounds exampleInput
  exact ⟨by omega,
    (C7_theorem exampleInput _ generatePlan_example validInput_example 0
      (by omega)).1⟩

/-- C8: generatePlan fails exactly when the start date fails to parse
(with no record produced on the failure path, which in this embedding
returns a bare error), and succeeds with the full non-empty plan whenever
the start date parses. -/
theorem C8_theorem (i : PlanInput) (_hv : ValidInput i) :
    ((∃ e, generatePlan i = Except.error e) ↔ parseDate i.startDate = none) ∧
    (∀ d, parseDate i.startDate = some d →
      generatePlan i = Except.ok (generatePlanCore i d) ∧
      generatePlanCore i d ≠ []) := by
  constructor
  · constructor
    · rintro ⟨e, he⟩
      cases hparse : parseDate i.startDate with
      | none => rfl
      | some d =>
        unfold generatePlan at he
        rw [hparse] at he
        simp at he
    · intro hn
      exact ⟨_, by unfold generatePlan; rw [hn]⟩
  · intro d hd
    refine ⟨by unfold generatePlan; rw [hd], ?_⟩
    have hlen := planCore_length_pos i d
    intro hnil
    rw [hnil] at hlen
    simp at hlen

/-- Witness for C8 at the spec's example input. -/
theorem C8_witness :
    generatePlan exampleInput = Except.ok (generatePlanCore exampleInput 19723) ∧
    generatePlanCore exampleInput 19723 ≠ [] :=
  (C8_theorem exampleInput validInput_example).2 19723 parseDate_example

/-! ### Reverse-phase facts for C3 -/

theorem round_mono' {a b : ℝ} (h : a ≤ b) : round a ≤ round b := by
  rw [round_eq, round_eq]
  exact Int.floor_le_floor (by linarith)

theorem planCore_filter_reverse (i : PlanInput) (d : ℤ) :
    (generatePlanCore i d).filter
        (fun r => decide (r.phaseName = PhaseName.reverseDiet)) =
      (run4 i d).1 := by
  rw [planCore_eq]
  rw [List.filter_append, List.filter_append, List.filter_append,
    List.filter_append]
  have h1 : ((run1 i d).1).filter
      (fun r => decide (r.phaseName = PhaseName.reverseDiet)) = [] := by
    apply List.filter_eq_nil_iff.mpr
    intro r hr
    have := runWeeks_phase _ _ _ _ _ _ _ r hr
    simp [this]
  have h2 : ((run2 i d).1).filter
      (fun r => decide (r.phaseName = PhaseName.reverseDiet)) = [] := by
    apply List.filter_eq_nil_iff.mpr
    intro r hr
    have := runWeeks_phase _ _ _ _ _ _ _ r hr
    simp [this]
  have h3 : ((run3 i d).1).filter
      (fun r => decide (r.phaseName = PhaseName.reverseDiet)) = [] := by
    apply List.filter_eq_nil_iff.mpr
    intro r hr
    have := runWeeks_phase _ _ _ _ _ _ _ r hr
    simp [this]
  have h4 : ((run4 i d).1).filter
      (fun r => decide (r.phaseName = PhaseName.reverseDiet)) = (run4 i d).1 := by
    apply List.filter_eq_self.mpr
    intro r hr
    have := reverseLoop_phase _ _ _ _ _ _ _ r hr
    simp [this]
  have h5 : ((run5 i d).1).filter
      (fun r => decide (r.phaseName = PhaseName.reverseDiet)) = [] := by
    apply List.filter_eq_nil_iff.mpr
    intro r hr
    have := runWeeks_phase _ _ _ _ _ _ _ r hr
    simp [this]
  rw [h1, h2, h3, h4, h5]
  simp

theorem reverseDuration_facts (i : PlanInput)
    (hinc : 0 < i.weeklyReverseIncreaseKcal)
    (hpos : 0 < reverseDurationWeeks i) :
    deficitCalories i < i.targetFinalMaintenanceCalories ∧
    i.targetFinalMaintenanceCalories ≤ deficitCalories i +
      ((reverseDurationWeeks i).toNat : ℝ) * i.weeklyReverseIncreaseKcal := by
  have hpos' : (0 : ℤ) < ⌈(i.targetFinalMaintenanceCalories - deficitCalories i) /
      i.weeklyReverseIncreaseKcal⌉ := hpos
  have h1 : (0 : ℝ) < (i.targetFinalMaintenanceCalories - deficitCalories i) /
      i.weeklyReverseIncreaseKcal := by
    have := Int.lt_ceil.mp hpos'
    simpa using this
  have hc : deficitCalories i < i.targetFinalMaintenanceCalories := by
    rcases div_pos_iff.mp h1 with ⟨ha, _⟩ | ⟨_, hb⟩
    · linarith
    · linarith
  have h2 : (i.targetFinalMaintenanceCalories - deficitCalories i) /
      i.weeklyReverseIncreaseKcal ≤ ((reverseDurationWeeks i : ℤ) : ℝ) :=
    Int.le_ceil _
  have h3 : i.targetFinalMaintenanceCalories - deficitCalories i ≤
      ((reverseDurationWeeks i : ℤ) : ℝ) * i.weeklyReverseIncreaseKcal := by
    rw [div_le_iff₀ hinc] at h2
    linarith
  have h4 : (((reverseDurationWeeks i).toNat : ℕ) : ℝ) =
      ((reverseDurationWeeks i : ℤ) : ℝ) := by
    have h5 : (((reverseDurationWeeks i).toNat : ℕ) : ℤ) =
        reverseDurationWeeks i := Int.toNat_of_nonneg (le_of_lt hpos)
    exact_mod_cast congrArg (fun z : ℤ => (z : ℝ)) h5
  refine ⟨hc, ?_⟩
  rw [h4]
  linarith

/-- C3 (amended): every Reverse Diet record's raw (pre-rounding) target is
at most targetFinalMaintenanceCalories, so its stored targetCalories is at
most round(targetFinalMaintenanceCalories); when the computed reverse
duration is positive the phase is non-empty, its last record's target is
exactly the rounded cap and every earlier record's raw target is strictly
below the cap (the phase stops the iteration the cap is first reached);
when the computed duration is non-positive no reverse week is emitted and
the phase sequence goes directly from the two Post-Deficit Maintenance
weeks to the New Maintenance week. -/
theorem C3_theorem (i : PlanInput) (p : List WeeklyPlan)
    (hok : generatePlan i = Except.ok p) (hv : ValidInput i) :
    (∀ r ∈ p, r.phaseName = PhaseName.reverseDiet → ∃ a : ℝ,
      a ≤ i.targetFinalMaintenanceCalories ∧ r.targetCalories = round a ∧
      r.targetCalories ≤ round i.targetFinalMaintenanceCalories) ∧
    (0 < reverseDurationWeeks i →
      (p.filter (fun r => decide (r.phaseName = PhaseName.reverseDiet))) ≠ [] ∧
      (p.filter (fun r => decide (r.phaseName = PhaseName.reverseDiet))).getLast?.map
          (fun r => r.targetCalories) =
        some (round i.targetFinalMaintenanceCalories) ∧
      (∀ k : ℕ, k + 1 < (p.filter
          (fun r => decide (r.phaseName = PhaseName.reverseDiet))).length →
        ∃ a : ℝ, a < i.targetFinalMaintenanceCalories ∧
          (p.filter (fun r => decide (r.phaseName = PhaseName.reverseDiet)))[k]?.map
            (fun r => r.targetCalories) = some (round a))) ∧
    (reverseDurationWeeks i ≤ 0 →
      p.map (fun r => r.phaseName) =
        [PhaseName.initialMaintenance] ++
        List.replicate (deficitDurationWeeks i).toNat PhaseName.calorieDeficit ++
        [PhaseName.postDeficitMaintenance, PhaseName.postDeficitMaintenance,
          PhaseName.newMaintenance]) := by
  obtain ⟨d, hparse, hp⟩ := generatePlan_ok hok
  subst hp
  obtain ⟨_, _, _, _, _, _, _, hinc⟩ := hv
  have hfilter := planCore_filter_reverse i d
  refine ⟨?_, ?_, ?_⟩
  · -- every reverse record's raw target is capped
    intro r hr hph
    have hrl4 : r ∈ (run4 i d).1 := by
      rw [← hfilter]
      exact List.mem_filter.mpr ⟨hr, by simp [hph]⟩
    obtain ⟨k, hk, hkr⟩ := List.getElem_of_mem hrl4
    have hk? : ((run4 i d).1)[k]? = some r := by
      rw [List.getElem?_eq_getElem hk]
      exact congrArg some hkr
    obtain ⟨r', hr', _, _, _, _, htc, _, _, _, _⟩ :=
      reverseLoop_get i.weeklyReverseIncreaseKcal
        i.targetFinalMaintenanceCalories
        (fun k2 => baseReverseTdee i (run3 i d).2.currentWeightKg *
          reverseRecoveryFactor k2)
        (reverseDurationWeeks i).toNat 0 (deficitCalories i) (run3 i d).2 k hk
    have hr'' : ((run4 i d).1)[k]? = some r' := hr'
    have hrr : r' = r := Option.some.inj (hr''.symm.trans hk?)
    subst hrr
    refine ⟨revTarget i.weeklyReverseIncreaseKcal
      i.targetFinalMaintenanceCalories (deficitCalories i) k, ?_, htc, ?_⟩
    · exact revTarget_le _ _ _ _
    · rw [htc]
      exact round_mono' (revTarget_le _ _ _ _)
  · -- positive duration: cap reached exactly at the last reverse week
    intro hpos
    obtain ⟨hc, hfuel⟩ := reverseDuration_facts i hinc hpos
    obtain ⟨hne, hlast, hbefore⟩ := reverseLoop_break
      i.weeklyReverseIncreaseKcal i.targetFinalMaintenanceCalories
      (fun k2 => baseReverseTdee i (run3 i d).2.currentWeightKg *
        reverseRecoveryFactor k2)
      (reverseDurationWeeks i).toNat 0 (deficitCalories i) (run3 i d).2
      hc hfuel
    have hne' : (run4 i d).1 ≠ [] := hne
    have hlast' : revTarget i.weeklyReverseIncreaseKcal
        i.targetFinalMaintenanceCalories (deficitCalories i)
        (((run4 i d).1).length - 1) = i.targetFinalMaintenanceCalories := hlast
    have hbefore' : ∀ k : ℕ, k + 1 < ((run4 i d).1).length →
        revTarget i.weeklyReverseIncreaseKcal i.targetFinalMaintenanceCalories
          (deficitCalories i) k < i.targetFinalMaintenanceCalories := hbefore
    have hLpos : 0 < ((run4 i d).1).length := List.length_pos.mpr hne'
    refine ⟨by rw [hfilter]; exact hne', ?_, ?_⟩
    · rw [hfilter]
      rw [List.getLast?_eq_getElem?]
      have hkL : ((run4 i d).1).length - 1 < ((run4 i d).1).length := by omega
      obtain ⟨r', hr', _, _, _, _, htc, _, _, _, _⟩ :=
        reverseLoop_get i.weeklyReverseIncreaseKcal
          i.targetFinalMaintenanceCalories
          (fun k2 => baseReverseTdee i (run3 i d).2.currentWeightKg *
            reverseRecoveryFactor k2)
          (reverseDurationWeeks i).toNat 0 (deficitCalories i) (run3 i d).2
          (((run4 i d).1).length - 1) hkL
      have hr'' : ((run4 i d).1)[((run4 i d).1).length - 1]? = some r' := hr'
      rw [hr'']
      simp only [Option.map_some']
      rw [htc]
      have := hlast'
      congr 2
    · intro k hkk
      rw [hfilter] at hkk ⊢
      refine ⟨revTarget i.weeklyReverseIncreaseKcal
        i.targetFinalMaintenanceCalories (deficitCalories i) k,
        hbefore' k hkk, ?_⟩
      have hk' : k < ((run4 i d).1).length := by omega
      obtain ⟨r', hr', _, _, _, _, htc, _, _, _, _⟩ :=
        reverseLoop_get i.weeklyReverseIncreaseKcal
          i.targetFinalMaintenanceCalories
          (fun k2 => baseReverseTdee i (run3 i d).2.currentWeightKg *
            reverseRecoveryFactor k2)
          (reverseDurationWeeks i).toNat 0 (deficitCalories i) (run3 i d).2
          k hk'
      have hr'' : ((run4 i d).1)[k]? = some r' := hr'
      rw [hr'']
      simp only [Option.map_some']
      rw [htc]
  · -- non-positive duration: zero reverse weeks
    intro hneg
    have h0 : (reverseDurationWeeks i).toNat = 0 := by omega
    have hl4 : (run4 i d).1 = [] := by
      show (reverseLoop i.weeklyReverseIncreaseKcal
        i.targetFinalMaintenanceCalories
        (fun k2 => baseReverseTdee i (run3 i d).2.currentWeightKg *
          reverseRecoveryFactor k2)
        (reverseDurationWeeks i).toNat 0 (deficitCalories i) (run3 i d).2).1 = []
      rw [h0, reverseLoop_zero]
    have hm := planCore_phases i d
    rw [hm, hl4]
    simp [List.replicate_succ]

theorem round_eval {a : ℝ} {z : ℤ} (h1 : (z : ℝ) ≤ a + 1 / 2)
    (h2 : a + 1 / 2 < z + 1) : round a = z := by
  rw [round_eq]
  rw [Int.floor_eq_iff]
  exact ⟨h1, h2⟩

theorem reverseDuration_example : reverseDurationWeeks exampleInput = 7 := by
  unfold reverseDurationWeeks deficitCalories
  have : (exampleInput.targetFinalMaintenanceCalories -
      (exampleInput.currentMaintenanceCalories - exampleInput.dailyDeficitKcal)) /
      exampleInput.weeklyReverseIncreaseKcal = (7 : ℝ) := by
    norm_num [exampleInput]
  rw [this]
  exact Int.ceil_intCast 7

/-- Witness for C3 at the spec's example input. -/
theorem C3_witness :
    0 < reverseDurationWeeks exampleInput ∧
    ((generatePlanCore exampleInput 19723).filter
        (fun r => decide (r.phaseName = PhaseName.reverseDiet))).getLast?.map
      (fun r => r.targetCalories) =
      some (round exampleInput.targetFinalMaintenanceCalories) := by
  have hpos : 0 < reverseDurationWeeks exampleInput := by
    rw [reverseDuration_example]
    norm_num
  exact ⟨hpos, ((C3_theorem exampleInput _ generatePlan_example
    validInput_example).2.1 hpos).2.1⟩

theorem validInput_fractionalCap : ValidInput fractionalCapInput := by
  refine ⟨?_, ?_, ?_, ?_, ?_, ?_, ?_, ?_⟩ <;> norm_num [fractionalCapInput]

theorem generatePlan_fractionalCap :
    generatePlan fractionalCapInput =
      Except.ok (generatePlanCore fractionalCapInput 19723) := by
  unfold generatePlan
  rw [show fractionalCapInput.startDate = "2024-01-01" from rfl,
    parseDate_example]

theorem deficitDuration_fractionalCap :
    deficitDurationWeeks fractionalCapInput = 4 := by
  unfold deficitDurationWeeks
  have h : fractionalCapInput.targetWeightLossKg * KCAL_PER_KG_FAT /
      (fractionalCapInput.dailyDeficitKcal * 7) * 1.1 = (0 : ℝ) := by
    norm_num [fractionalCapInput, KCAL_PER_KG_FAT]
  rw [h, Int.ceil_zero]
  norm_num

theorem reverseDuration_fractionalCap :
    reverseDurationWeeks fractionalCapInput = 8 := by
  unfold reverseDurationWeeks deficitCalories
  have h : (fractionalCapInput.targetFinalMaintenanceCalories -
      (fractionalCapInput.currentMaintenanceCalories -
        fractionalCapInput.dailyDeficitKcal)) /
      fractionalCapInput.weeklyReverseIncreaseKcal = (7.006 : ℝ) := by
    norm_num [fractionalCapInput]
  rw [h]
  rw [Int.ceil_eq_iff] <;> norm_num

theorem run4_fractionalCap_length :
    ((run4 fractionalCapInput 19723).1).length = 8 := by
  have hincr : fractionalCapInput.weeklyReverseIncreaseKcal = (100 : ℝ) := rfl
  have hT : fractionalCapInput.targetFinalMaintenanceCalories = (2200.6 : ℝ) := rfl
  have hcur : deficitCalories fractionalCapInput = (1500 : ℝ) := by
    unfold deficitCalories
    norm_num [fractionalCapInput]
  have hc : deficitCalories fractionalCapInput <
      fractionalCapInput.targetFinalMaintenanceCalories := by
    rw [hcur, hT]; norm_num
  have hfuel : fractionalCapInput.targetFinalMaintenanceCalories ≤
      deficitCalories fractionalCapInput +
        ((reverseDurationWeeks fractionalCapInput).toNat : ℝ) *
          fractionalCapInput.weeklyReverseIncreaseKcal := by
    rw [hcur, hT, hincr, reverseDuration_fractionalCap]
    have h8 : (8 : ℤ).toNat = (8 : ℕ) := rfl
    rw [h8]
    norm_num
  obtain ⟨hne, hlast, _⟩ := reverseLoop_break
    fractionalCapInput.weeklyReverseIncreaseKcal
    fractionalCapInput.targetFinalMaintenanceCalories
    (fun k2 => baseReverseTdee fractionalCapInput
      (run3 fractionalCapInput 19723).2.currentWeightKg *
      reverseRecoveryFactor k2)
    (reverseDurationWeeks fractionalCapInput).toNat 0
    (deficitCalories fractionalCapInput) (run3 fractionalCapInput 19723).2
    hc hfuel
  have hne' : (run4 fractionalCapInput 19723).1 ≠ [] := hne
  have hlast' : revTarget fractionalCapInput.weeklyReverseIncreaseKcal
      fractionalCapInput.targetFinalMaintenanceCalories
      (deficitCalories fractionalCapInput)
      (((run4 fractionalCapInput 19723).1).length - 1) =
      fractionalCapInput.targetFinalMaintenanceCalories := hlast
  have hLle : ((run4 fractionalCapInput 19723).1).length ≤ 8 := by
    have h := reverseLoop_length_le
      fractionalCapInput.weeklyReverseIncreaseKcal
      fractionalCapInput.targetFinalMaintenanceCalories
      (fun k2 => baseReverseTdee fractionalCapInput
        (run3 fractionalCapInput 19723).2.currentWeightKg *
        reverseRecoveryFactor k2)
      (reverseDurationWeeks fractionalCapInput).toNat 0
      (deficitCalories fractionalCapInput) (run3 fractionalCapInput 19723).2
    have h' : ((run4 fractionalCapInput 19723).1).length ≤
        (reverseDurationWeeks fractionalCapInput).toNat := h
    rw [reverseDuration_fractionalCap] at h'
    omega
  have hLpos : 0 < ((run4 fractionalCapInput 19723).1).length :=
    List.length_pos.mpr hne'
  by_contra hne8
  have hL7 : ((run4 fractionalCapInput 19723).1).length ≤ 7 := by omega
  have hclosed := revTarget_closed
    fractionalCapInput.weeklyReverseIncreaseKcal
    fractionalCapInput.targetFinalMaintenanceCalories
    (by rw [hincr]; norm_num)
    (((run4 fractionalCapInput 19723).1).length - 1)
    (deficitCalories fractionalCapInput)
  rw [hclosed] at hlast'
  have hcast : ((((run4 fractionalCapInput 19723).1).length - 1 + 1 : ℕ) : ℝ) ≤ 7 := by
    have : (((run4 fractionalCapInput 19723).1).length - 1 + 1 : ℕ) ≤ 7 := by omega
    exact_mod_cast this
  rw [hcur, hT, hincr] at hlast'
  have hlt : (1500 : ℝ) +
      ((((run4 fractionalCapInput 19723).1).length - 1 + 1 : ℕ) : ℝ) * 100 ≤ 2200 := by
    nlinarith
  rw [min_eq_left (by linarith)] at hlast'
  linarith

/-- Counterexample to C3 as stated: on a valid input whose final
maintenance target is 2200.6 kcal, the last Reverse Diet record stores
targetCalories 2201, which exceeds targetFinalMaintenanceCalories; the
cap bounds the raw running target, but the stored value is its rounding. -/
theorem C3_counterexample :
    ValidInput fractionalCapInput ∧
    generatePlan fractionalCapInput =
      Except.ok (generatePlanCore fractionalCapInput 19723) ∧
    ((generatePlanCore fractionalCapInput 19723)[14]?).map
        (fun r => (r.phaseName, r.targetCalories)) =
      some (PhaseName.reverseDiet, 2201) ∧
    ¬ ((2201 : ℝ) ≤ fractionalCapInput.targetFinalMaintenanceCalories) := by
  refine ⟨validInput_fractionalCap, generatePlan_fractionalCap, ?_, ?_⟩
  · have hidx := planCore_idx_run4 fractionalCapInput 19723 7
      (by rw [run4_fractionalCap_length]; omega)
    rw [deficitDuration_fractionalCap] at hidx
    have h4 : (4 : ℤ).toNat = 4 := rfl
    rw [h4] at hidx
    norm_num at hidx
    rw [hidx]
    have hk7 : 7 < ((run4 fractionalCapInput 19723).1).length := by
      rw [run4_fractionalCap_length]; omega
    obtain ⟨r, hr, hph, _, _, _, htc, _, _, _, _⟩ := reverseLoop_get
      fractionalCapInput.weeklyReverseIncreaseKcal
      fractionalCapInput.targetFinalMaintenanceCalories
      (fun k2 => baseReverseTdee fractionalCapInput
        (run3 fractionalCapInput 19723).2.currentWeightKg *
        reverseRecoveryFactor k2)
      (reverseDurationWeeks fractionalCapInput).toNat 0
      (deficitCalories fractionalCapInput)
      (run3 fractionalCapInput 19723).2 7 hk7
    have hr' : ((run4 fractionalCapInput 19723).1)[7]? = some r := hr
    rw [hr', Option.map_some']
    have hincr : fractionalCapInput.weeklyReverseIncreaseKcal = (100 : ℝ) := rfl
    have hT : fractionalCapInput.targetFinalMaintenanceCalories =
      (2200.6 : ℝ) := rfl
    have hcur : deficitCalories fractionalCapInput = (1500 : ℝ) := by
      unfold deficitCalories
      norm_num [fractionalCapInput]
    have hclosed := revTarget_closed
      fractionalCapInput.weeklyReverseIncreaseKcal
      fractionalCapInput.targetFinalMaintenanceCalories
      (by rw [hincr]; norm_num) 7 (deficitCalories fractionalCapInput)
    rw [hcur, hT, hincr] at hclosed
    have hval : revTarget (100 : ℝ) (2200.6 : ℝ) (1500 : ℝ) 7 = 2200.6 := by
      rw [hclosed]
      rw [min_eq_right (by norm_num)]
    have htc' : r.targetCalories = 2201 := by
      rw [htc]
      have harg : revTarget fractionalCapInput.weeklyReverseIncreaseKcal
          fractionalCapInput.targetFinalMaintenanceCalories
          (deficitCalories fractionalCapInput) 7 = (2200.6 : ℝ) := by
        rw [hcur, hT, hincr]
        exact hval
      rw [harg]
      exact round_eval (by norm_num) (by norm_num)
    rw [hph, htc']
  · rw [show fractionalCapInput.targetFinalMaintenanceCalories =
      (2200.6 : ℝ) from rfl]
    norm_num

theorem validInput_fractionalCalories : ValidInput fractionalCaloriesInput := by
  refine ⟨?_, ?_, ?_, ?_, ?_, ?_, ?_, ?_⟩ <;> norm_num [fractionalCaloriesInput]

theorem generatePlan_fractionalCalories :
    generatePlan fractionalCaloriesInput =
      Except.ok (generatePlanCore fractionalCaloriesInput 19723) := by
  unfold generatePlan
  rw [show fractionalCaloriesInput.startDate = "2024-01-01" from rfl,
    parseDate_example]

theorem deficitDuration_fractionalCalories :
    deficitDurationWeeks fractionalCaloriesInput = 4 := by
  unfold deficitDurationWeeks
  have h : fractionalCaloriesInput.targetWeightLossKg * KCAL_PER_KG_FAT /
      (fractionalCaloriesInput.dailyDeficitKcal * 7) * 1.1 = (0 : ℝ) := by
    norm_num [fractionalCaloriesInput, KCAL_PER_KG_FAT]
  rw [h, Int.ceil_zero]
  norm_num

theorem deficitCalories_fractionalCalories :
    deficitCalories fractionalCaloriesInput = (1500.6 : ℝ) := by
  unfold deficitCalories
  norm_num [fractionalCaloriesInput]

/-- Counterexample to C6 as stated: on a valid input with maintenance
calories 2000.4 and daily deficit 499.8, week 2 stores
calorieChangeFromPreviousWeek = round(1500.6 - 2000.4) = -500, while the
difference of the stored targets is 1501 - 2000 = -499. -/
theorem C6_counterexample :
    ValidInput fractionalCaloriesInput ∧
    generatePlan fractionalCaloriesInput =
      Except.ok (generatePlanCore fractionalCaloriesInput 19723) ∧
    ((generatePlanCore fractionalCaloriesInput 19723)[0]?).map
        (fun r => r.targetCalories) = some 2000 ∧
    ((generatePlanCore fractionalCaloriesInput 19723)[1]?).map
        (fun r => (r.targetCalories, r.calorieChangeFromPreviousWeek)) =
      some (1501, some (-500)) ∧
    (-500 : ℤ) ≠ 1501 - 2000 := by
  refine ⟨validInput_fractionalCalories, generatePlan_fractionalCalories,
    ?_, ?_, by decide⟩
  · rw [planCore_idx_run1]
    obtain ⟨r, hr, _, _, _, _, htc, _, _, _, _, _, _⟩ :=
      runWeeks_get PhaseName.initialMaintenance
        (fun _ => fractionalCaloriesInput.currentMaintenanceCalories)
        (fun _ => initialTdee fractionalCaloriesInput)
        (fun _ b => b / KCAL_PER_KG_FAT) WEEKS_INITIAL_MAINTENANCE 0
        (state0 fractionalCaloriesInput 19723) 0 (by norm_num [WEEKS_INITIAL_MAINTENANCE])
    have hr' : ((run1 fractionalCaloriesInput 19723).1)[0]? = some r := hr
    rw [hr', Option.map_some']
    congr 1
    rw [htc]
    rw [show fractionalCaloriesInput.currentMaintenanceCalories =
      (2000.4 : ℝ) from rfl]
    exact round_eval (by norm_num) (by norm_num)
  · have hidx := planCore_idx_run2 fractionalCaloriesInput 19723 0
      (by rw [deficitDuration_fractionalCalories]; norm_num)
    norm_num at hidx
    rw [hidx]
    obtain ⟨r, hr, _, _, _, _, htc, _, _, _, hch, _, _⟩ :=
      runWeeks_get PhaseName.calorieDeficit
        (fun _ => deficitCalories fractionalCaloriesInput)
        (fun k2 => baseTdee fractionalCaloriesInput *
          calculateAdaptationFactor (k2 : ℝ))
        (fun k2 b => b / (KCAL_PER_KG_FAT * efficiencyFactor k2))
        (deficitDurationWeeks fractionalCaloriesInput).toNat 0
        (run1 fractionalCaloriesInput 19723).2 0
        (by rw [show deficitDurationWeeks fractionalCaloriesInput = 4 from
          deficitDuration_fractionalCalories]; norm_num)
    have hr' : ((run2 fractionalCaloriesInput 19723).1)[0]? = some r := hr
    rw [hr', Option.map_some']
    have hlast : (run1 fractionalCaloriesInput 19723).2.lastWeekCalories =
        some fractionalCaloriesInput.currentMaintenanceCalories := by
      have h := (runWeeks_snd PhaseName.initialMaintenance
        (fun _ => fractionalCaloriesInput.currentMaintenanceCalories)
        (fun _ => initialTdee fractionalCaloriesInput)
        (fun _ b => b / KCAL_PER_KG_FAT) WEEKS_INITIAL_MAINTENANCE 0
        (state0 fractionalCaloriesInput 19723)).2.2.1
    -- uses that WEEKS_INITIAL_MAINTENANCE = 1 is not 0
      have h' : (run1 fractionalCaloriesInput 19723).2.lastWeekCalories =
          (if WEEKS_INITIAL_MAINTENANCE = 0 then
            (state0 fractionalCaloriesInput 19723).lastWeekCalories
           else some fractionalCaloriesInput.currentMaintenanceCalories) := h
      rw [h']
      norm_num [WEEKS_INITIAL_MAINTENANCE]
    congr 1
    have ht : r.targetCalories = 1501 := by
      rw [htc, deficitCalories_fractionalCalories]
      exact round_eval (by norm_num) (by norm_num)
    have hround : round ((1500.6 : ℝ) - 2000.4) = (-500 : ℤ) := by
      have h9 : (1500.6 : ℝ) - 2000.4 = -499.8 := by norm_num
      rw [h9]
      exact round_eval (by norm_num) (by norm_num)
    have hc : r.calorieChangeFromPreviousWeek = some (-500) := by
      rw [hch, hlast, deficitCalories_fractionalCalories,
        show fractionalCaloriesInput.currentMaintenanceCalories =
          (2000.4 : ℝ) from rfl]
      simp [hround]
    rw [ht, hc]
